import Mathlib

/-!
Verification of the network performance tester (data-gatherer).

This file gives a shallow embedding of the core of
src/data-gatherer/network_performance_tester.py:

* the Policy/Registry Loader (zone-file parsing),
* the Address Policy Validator (CGN block membership over CPython's
  ipaddress.ip_address parsing),
* the Bandwidth Trial Runner and the Trial Aggregator (iperf3 trials,
  median aggregation),
* the Resolution Trial Runner (dig invocation, answer parsing, CGN
  validation).

External subprocess behaviour (iperf3, dig) is modelled by explicit outcome
values handed to the trial runners; wall-clock times and Python floats are
modelled by exact rationals; Python exceptions are modelled by an explicit
error type threaded through Except.  All definitions are computable and
structurally recursive so that closed instances evaluate in the kernel.
-/

/-- The Python exception classes that the translated code can raise or
catch.  `valueError` stands for a plain `ValueError` (which the factory
`ipaddress.ip_address` raises on malformed text and which is *not* an
`ipaddress.AddressValueError`). -/
inductive PyErr where
  | valueError
  | indexError
  | keyError
  | typeError
  | attributeError
deriving DecidableEq, Repr

deriving instance DecidableEq for Except

/-! ## Character and list-of-characters utilities

Python string operations used by the source are modelled on `List Char`
(ASCII behaviour; the source only ever handles ASCII tool output). -/

/-- Python's notion of a whitespace character (`str.strip`, `str.split`,
`re.split(r'\s+')`), restricted to ASCII. -/
def pyIsSpaceChar (c : Char) : Bool :=
  c == ' ' || c == '\t' || c == '\n' || c == '\r' || c == '\x0b' || c == '\x0c'

/-- `str.strip()` on a character list. -/
def pyStripCore (l : List Char) : List Char :=
  ((l.dropWhile pyIsSpaceChar).reverse.dropWhile pyIsSpaceChar).reverse

/-- `str.strip()`. -/
def pyStrip (s : String) : String := ⟨pyStripCore s.data⟩

/-- `str.rstrip('.')` on a character list: remove every trailing dot. -/
def rstripDotCore (l : List Char) : List Char :=
  (l.reverse.dropWhile (· == '.')).reverse

/-- `str.rstrip('.')`. -/
def rstripDot (s : String) : String := ⟨rstripDotCore s.data⟩

/-- `str.upper()` (ASCII). -/
def pyUpper (s : String) : String := ⟨s.data.map Char.toUpper⟩

/-- `s.split(sep)` for a one-character separator `sep`, keeping empty
pieces, exactly like Python's `str.split` with an explicit separator:
the result is always non-empty and has one piece per separator occurrence
plus one. -/
def splitOnChar (c : Char) : List Char → List (List Char)
  | [] => [[]]
  | x :: xs =>
    if x == c then [] :: splitOnChar c xs
    else
      match splitOnChar c xs with
      | [] => [[x]]
      | p :: ps => (x :: p) :: ps

/-- Joining with a one-character separator (inverse of `splitOnChar`). -/
def joinWithChar (c : Char) : List (List Char) → List Char
  | [] => []
  | [p] => p
  | p :: ps => p ++ c :: joinWithChar c ps

/-- Whitespace splitting with empty pieces dropped: the behaviour of
`re.split(r'\s+', s)` on a stripped string, and of `str.split()` with no
argument.  `acc` is the current word, reversed. -/
def splitWSAux (acc : List Char) : List Char → List (List Char)
  | [] => if acc.isEmpty then [] else [acc.reverse]
  | c :: cs =>
    if pyIsSpaceChar c then
      if acc.isEmpty then splitWSAux [] cs else acc.reverse :: splitWSAux [] cs
    else splitWSAux (c :: acc) cs

/-- Whitespace splitting (see `splitWSAux`), producing strings. -/
def splitWS (s : String) : List String :=
  (splitWSAux [] s.data).map fun w => ⟨w⟩

/-- Python `sub in s` substring test, on character lists. -/
def containsSubCore (pat : List Char) : List Char → Bool
  | [] => pat.isEmpty
  | l@(_ :: xs) => pat.isPrefixOf l || containsSubCore pat xs

/-- Python `sub in s` substring test. -/
def containsSub (pat s : String) : Bool := containsSubCore pat.data s.data

/-- Python `s.startswith(p)` for a one-character pattern. -/
def startsWithChar (c : Char) (s : String) : Bool :=
  match s.data with
  | [] => false
  | x :: _ => x == c

/-! ## Digit strings

Generic base-`b` numerals (2 ≤ b ≤ 16), used for decimal octets, the
hexadecimal hextets of IPv6 addresses, and Python's `int(str)`. -/

/-- The character for digit value `d < 16`, lowercase (as produced by
Python's `str(n)` and `'%x' % n`). -/
def hexDigitChar (d : Nat) : Char :=
  if d < 10 then Char.ofNat (48 + d) else Char.ofNat (87 + d)

/-- The value of a hexadecimal digit character, accepting both cases
(as accepted by Python's `int(s, 16)`). -/
def hexVal (c : Char) : Option Nat :=
  if '0' ≤ c ∧ c ≤ '9' then some (c.toNat - 48)
  else if 'a' ≤ c ∧ c ≤ 'f' then some (c.toNat - 87)
  else if 'A' ≤ c ∧ c ≤ 'F' then some (c.toNat - 55)
  else none

/-- Little-endian digit values of `n` in base `b`; the first argument is
fuel (taking `fuel = n` is always enough for `b ≥ 2`). -/
def toDigitsAux (b : Nat) : Nat → Nat → List Nat
  | _, 0 => []
  | 0, _ + 1 => []
  | fuel + 1, n + 1 => ((n + 1) % b) :: toDigitsAux b fuel ((n + 1) / b)

/-- Little-endian digit values of `n` in base `b` (empty for `n = 0`). -/
def toDigitsLE (b n : Nat) : List Nat := toDigitsAux b n n

/-- Value of a little-endian digit list in base `b`. -/
def ofDigitsLE (b : Nat) : List Nat → Nat
  | [] => 0
  | d :: ds => d + b * ofDigitsLE b ds

/-- The numeral for `n` in base `b`: Python's `str(n)` (b = 10) and
`'%x' % n` (b = 16) for `n ≥ 0`. -/
def natToChars (b n : Nat) : List Char :=
  if n = 0 then ['0'] else ((toDigitsLE b n).map hexDigitChar).reverse

/-- One step of most-significant-first numeral evaluation, failing on a
character that is not a digit of base `b`. -/
def parseDigitStep (b : Nat) (acc : Option Nat) (c : Char) : Option Nat :=
  acc.bind fun a => (hexVal c).bind fun d => if d < b then some (a * b + d) else none

/-- Evaluation of a non-empty all-digits numeral in base `b`: the core of
Python's `int(s)` / `int(s, 16)` once sign and whitespace are gone. -/
def parseNatCore (b : Nat) (cs : List Char) : Option Nat :=
  if cs.isEmpty then none else cs.foldl (parseDigitStep b) (some 0)

theorem toDigitsAux_ofDigits (b : Nat) (hb : 2 ≤ b) :
    ∀ fuel n, n ≤ fuel → ofDigitsLE b (toDigitsAux b fuel n) = n := by
  intro fuel
  induction fuel with
  | zero =>
    intro n hn
    interval_cases n
    simp [toDigitsAux, ofDigitsLE]
  | succ fuel ih =>
    intro n hn
    match n with
    | 0 => simp [toDigitsAux, ofDigitsLE]
    | m + 1 =>
      have hdiv : (m + 1) / b ≤ fuel := by
        have h1 : (m + 1) / b < m + 1 := Nat.div_lt_self (Nat.succ_pos m) (by omega)
        omega
      simp only [toDigitsAux, ofDigitsLE, ih _ hdiv]
      exact Nat.mod_add_div (m + 1) b

theorem ofDigits_toDigitsLE (b n : Nat) (hb : 2 ≤ b) :
    ofDigitsLE b (toDigitsLE b n) = n :=
  toDigitsAux_ofDigits b hb n n le_rfl

theorem toDigitsAux_lt (b : Nat) (hb : 2 ≤ b) :
    ∀ fuel n, ∀ d ∈ toDigitsAux b fuel n, d < b := by
  intro fuel
  induction fuel with
  | zero =>
    intro n d hd
    match n with
    | 0 => simp [toDigitsAux] at hd
    | _ + 1 => simp [toDigitsAux] at hd
  | succ fuel ih =>
    intro n d hd
    match n with
    | 0 => simp [toDigitsAux] at hd
    | m + 1 =>
      simp only [toDigitsAux, List.mem_cons] at hd
      rcases hd with h | h
      · subst h; exact Nat.mod_lt _ (by omega)
      · exact ih _ _ h

theorem toDigitsLE_lt (b n : Nat) (hb : 2 ≤ b) : ∀ d ∈ toDigitsLE b n, d < b :=
  toDigitsAux_lt b hb n n

theorem toDigitsAux_len (b : Nat) (hb : 2 ≤ b) :
    ∀ fuel n k, n < b ^ k → (toDigitsAux b fuel n).length ≤ k := by
  intro fuel
  induction fuel with
  | zero =>
    intro n k _
    match n with
    | 0 => simp [toDigitsAux]
    | _ + 1 => simp [toDigitsAux]
  | succ fuel ih =>
    intro n k hk
    match n with
    | 0 => simp [toDigitsAux]
    | m + 1 =>
      match k with
      | 0 => simp at hk
      | k + 1 =>
        have hdiv : (m + 1) / b < b ^ k := by
          rw [Nat.div_lt_iff_lt_mul (show 0 < b by omega)]
          calc m + 1 < b ^ (k + 1) := hk
            _ = b ^ k * b := by ring
        simp only [toDigitsAux, List.length_cons]
        have := ih ((m + 1) / b) k hdiv
        omega

theorem toDigitsLE_len (b n k : Nat) (hb : 2 ≤ b) (h : n < b ^ k) :
    (toDigitsLE b n).length ≤ k :=
  toDigitsAux_len b hb n n k h

theorem toDigitsLE_ne_nil (b n : Nat) (hn : 0 < n) : toDigitsLE b n ≠ [] := by
  match n with
  | m + 1 => simp [toDigitsLE, toDigitsAux]

/-- The most significant digit of a positive number is positive: its digit
list ends in a nonzero digit. -/
theorem toDigitsAux_msd (b : Nat) (hb : 2 ≤ b) :
    ∀ fuel n, 0 < n → n ≤ fuel →
      ∃ d ds, toDigitsAux b fuel n = ds ++ [d] ∧ 0 < d ∧ d < b := by
  intro fuel
  induction fuel with
  | zero => intro n h1 h2; omega
  | succ fuel ih =>
    intro n h1 h2
    match n with
    | m + 1 =>
      by_cases hq : (m + 1) / b = 0
      · have hmod : (m + 1) % b = m + 1 := by
          have h := Nat.mod_add_div (m + 1) b
          rw [hq] at h
          simpa using h
        have hlt : m + 1 < b := by
          rcases Nat.lt_or_ge (m + 1) b with h | h
          · exact h
          · exact absurd ((Nat.div_eq_zero_iff (by omega)).mp hq) (by omega)
        refine ⟨m + 1, [], ?_, by omega, hlt⟩
        have htail : toDigitsAux b fuel ((m + 1) / b) = [] := by
          rw [hq]; cases fuel <;> rfl
        simp [toDigitsAux, htail, hmod]
      · have hdiv : (m + 1) / b ≤ fuel := by
          have hlt : (m + 1) / b < m + 1 := Nat.div_lt_self (Nat.succ_pos m) (by omega)
          omega
        obtain ⟨d, ds, heq, hd1, hd2⟩ :=
          ih ((m + 1) / b) (Nat.pos_of_ne_zero hq) hdiv
        exact ⟨d, (m + 1) % b :: ds, by simp [toDigitsAux, heq], hd1, hd2⟩

theorem toDigitsLE_msd (b n : Nat) (hb : 2 ≤ b) (hn : 0 < n) :
    ∃ d ds, toDigitsLE b n = ds ++ [d] ∧ 0 < d ∧ d < b :=
  toDigitsAux_msd b hb n n hn le_rfl

/-- The digit characters, as predicates usable in parsers. -/
def isDecDigitChar (c : Char) : Bool := '0' ≤ c && c ≤ '9'

/-- Hexadecimal digit character test (`string.hexdigits`). -/
def isHexDigitChar (c : Char) : Bool := (hexVal c).isSome

theorem hexVal_hexDigitChar : ∀ d : Fin 16, hexVal (hexDigitChar d.val) = some d.val := by
  decide

theorem hexVal_hexDigitChar_of_lt {d : Nat} (h : d < 16) :
    hexVal (hexDigitChar d) = some d := hexVal_hexDigitChar ⟨d, h⟩

theorem foldl_digits (b : Nat) (hb2 : 2 ≤ b) (hb16 : b ≤ 16) (ds : List Nat)
    (hds : ∀ d ∈ ds, d < b) :
    ∀ a : Nat, ((ds.map hexDigitChar).reverse).foldl (parseDigitStep b) (some a) =
      some (a * b ^ ds.length + ofDigitsLE b ds) := by
  induction ds with
  | nil => intro a; simp [ofDigitsLE]
  | cons d ds ih =>
    intro a
    have hd : d < b := hds d (List.mem_cons_self d ds)
    have hds' : ∀ x ∈ ds, x < b := fun x hx => hds x (List.mem_cons_of_mem d hx)
    simp only [List.map_cons, List.reverse_cons, List.foldl_append, ih hds' a]
    simp only [List.foldl_cons, List.foldl_nil, parseDigitStep, Option.bind_eq_bind,
      Option.some_bind]
    rw [hexVal_hexDigitChar_of_lt (by omega)]
    simp only [Option.some_bind, if_pos hd, ofDigitsLE, List.length_cons]
    congr 1
    ring

theorem parseNatCore_natToChars (b n : Nat) (hb2 : 2 ≤ b) (hb16 : b ≤ 16) :
    parseNatCore b (natToChars b n) = some n := by
  by_cases hn : n = 0
  · subst hn
    simp only [natToChars, if_pos rfl, parseNatCore]
    have h0 : hexVal '0' = some 0 := by decide
    simp [parseDigitStep, h0, hb2, List.foldl]
    omega
  · simp only [natToChars, if_neg hn, parseNatCore]
    have hne : toDigitsLE b n ≠ [] := toDigitsLE_ne_nil b n (by omega)
    have hlen : ((toDigitsLE b n).map hexDigitChar).reverse.isEmpty = false := by
      simp [List.isEmpty_iff, hne]
    rw [if_neg (by simp [hlen])]
    rw [foldl_digits b hb2 hb16 _ (toDigitsLE_lt b n hb2) 0]
    simp [ofDigits_toDigitsLE b n hb2]

theorem natToChars_ne_nil (b n : Nat) : natToChars b n ≠ [] := by
  by_cases hn : n = 0
  · simp [natToChars, hn]
  · simp only [natToChars, if_neg hn]
    intro h
    rw [List.reverse_eq_nil_iff, List.map_eq_nil_iff] at h
    exact toDigitsLE_ne_nil b n (by omega) h

theorem mem_natToChars (b n : Nat) (hb2 : 2 ≤ b) (hb16 : b ≤ 16) :
    ∀ c ∈ natToChars b n, ∃ d : Nat, d < b ∧ c = hexDigitChar d := by
  intro c hc
  by_cases hn : n = 0
  · subst hn
    simp [natToChars] at hc
    exact ⟨0, by omega, by rw [hc]; decide⟩
  · simp only [natToChars, if_neg hn, List.mem_reverse, List.mem_map] at hc
    obtain ⟨d, hd, rfl⟩ := hc
    exact ⟨d, toDigitsLE_lt b n hb2 d hd, rfl⟩

/-! ## IP address literals

Model of CPython's `ipaddress.ip_address` factory on strings: first the
IPv4 dotted-quad grammar (`IPv4Address._ip_int_from_string`), then the
IPv6 grammar (`IPv6Address._ip_int_from_string`), including '::'
compression and an embedded IPv4 tail.  Zone-id suffixes ('%eth0') are
not modelled; such inputs are rejected here while CPython accepts them —
no claim exercises them.  On total failure the factory raises a *plain*
`ValueError`, not `ipaddress.AddressValueError`. -/

/-- CPython `IPv4Address._parse_octet`: non-empty, ASCII digits only,
at most 3 characters, no leading zero, value at most 255. -/
def parse_octet (cs : List Char) : Option Nat :=
  if cs.isEmpty then none
  else if !(cs.all isDecDigitChar) then none
  else if 3 < cs.length then none
  else if 1 < cs.length && (cs.headD ' ' == '0') then none
  else (parseNatCore 10 cs).bind fun n => if n ≤ 255 then some n else none

/-- One step of big-endian base-256 accumulation
(`int.from_bytes(octet_values)`). -/
def foldByteStep (a d : Nat) : Nat := a * 256 + d

/-- `mapM` over `Option`, written structurally. -/
def optMapM {α β : Type} (f : α → Option β) : List α → Option (List β)
  | [] => some []
  | x :: xs => (f x).bind fun y => (optMapM f xs).map (y :: ·)

/-- CPython `IPv4Address._ip_int_from_string`: split on '.', exactly four
octets, big-endian value. -/
def parseIPv4Core (cs : List Char) : Option Nat :=
  let octs := splitOnChar '.' cs
  if octs.length ≠ 4 then none
  else (optMapM parse_octet octs).map fun vs => vs.foldl foldByteStep 0

/-- CPython `str(IPv4Address)`: dotted decimal. -/
def formatIPv4 (n : Nat) : List Char :=
  natToChars 10 (n / 16777216 % 256) ++ '.' ::
  (natToChars 10 (n / 65536 % 256) ++ '.' ::
  (natToChars 10 (n / 256 % 256) ++ '.' :: natToChars 10 (n % 256)))

/-- CPython `IPv6Address._parse_hextet`: hexadecimal digits only, at most
4 characters (the empty string ultimately also fails, via `int('', 16)`). -/
def parse_hextet (cs : List Char) : Option Nat :=
  if !(cs.all isHexDigitChar) then none
  else if 4 < cs.length then none
  else parseNatCore 16 cs

/-- One step of big-endian base-65536 accumulation
(`ip_int <<= 16; ip_int |= hextet`). -/
def foldHexStep (a d : Nat) : Nat := a * 65536 + d

/-- Scan the middle parts of a ':'-split for empty pieces: `none` when two
occur (at most one '::' is permitted), otherwise the absolute index of the
single empty middle, if any.  `base` is the index of the first scanned
part. -/
def scanEmpties : List (List Char) → Nat → Option (Option Nat)
  | [], _ => some none
  | x :: xs, base =>
    if x.isEmpty then
      if xs.any (fun p => p.isEmpty) then none else some (some base)
    else scanEmpties xs (base + 1)

/-- CPython's hextet-assembly loops: the value built from the hextets
before and after a '::' (`ip_int` of the two ranged loops with the shift
for the skipped groups in between). -/
def ipv6SkipValue (parts : List (List Char)) (hi lo : Nat) : Option Nat :=
  match optMapM parse_hextet (parts.take hi),
        optMapM parse_hextet (parts.drop (parts.length - lo)) with
  | some hs, some ls =>
      some (ls.foldl foldHexStep (hs.foldl foldHexStep 0 * 65536 ^ (8 - (hi + lo))))
  | _, _ => none

/-- CPython `IPv6Address._ip_int_from_string`. -/
def parseIPv6Core (cs : List Char) : Option Nat :=
  if cs.isEmpty then none
  else
    let parts0 := splitOnChar ':' cs
    if parts0.length < 3 then none
    else
      let expanded : Option (List (List Char)) :=
        match parts0.getLast? with
        | none => none
        | some lp =>
          if lp.any (fun c => c == '.') then
            match parseIPv4Core lp with
            | none => none
            | some v4 =>
              some (parts0.dropLast ++
                [natToChars 16 (v4 / 65536), natToChars 16 (v4 % 65536)])
          else some parts0
      match expanded with
      | none => none
      | some parts =>
        if 9 < parts.length then none
        else
          match scanEmpties ((parts.drop 1).dropLast) 1 with
          | none => none
          | some (some si) =>
            let hi0 := si
            let lo0 := parts.length - si - 1
            let headEmpty := (parts.headD []).isEmpty
            let lastEmpty := ((parts.getLast?).getD []).isEmpty
            let hi := if headEmpty then hi0 - 1 else hi0
            if headEmpty && !(hi == 0) then none
            else
              let lo := if lastEmpty then lo0 - 1 else lo0
              if lastEmpty && !(lo == 0) then none
              else if 8 ≤ hi + lo then none
              else ipv6SkipValue parts hi lo
          | some none =>
            if parts.length ≠ 8 then none
            else if (parts.headD []).isEmpty then none
            else if ((parts.getLast?).getD []).isEmpty then none
            else (optMapM parse_hextet parts).map (fun hs => hs.foldl foldHexStep 0)

/-- A parsed address: `IPv4Address` or `IPv6Address` with its integer
value. -/
inductive IPAddr where
  | v4 (n : Nat)
  | v6 (n : Nat)
deriving DecidableEq, Repr

/-- The `ipaddress.ip_address` factory: IPv4 first, then IPv6; `none`
models the plain `ValueError` the factory raises when both fail. -/
def ip_address (s : String) : Option IPAddr :=
  match parseIPv4Core s.data with
  | some n => some (IPAddr.v4 n)
  | none =>
    match parseIPv6Core s.data with
    | some n => some (IPAddr.v6 n)
    | none => none

/-- The eight big-endian hextets of an IPv6 value. -/
def hextetsOf (n : Nat) : List Nat :=
  [n / 2 ^ 112 % 65536, n / 2 ^ 96 % 65536, n / 2 ^ 80 % 65536,
   n / 2 ^ 64 % 65536, n / 2 ^ 48 % 65536, n / 2 ^ 32 % 65536,
   n / 2 ^ 16 % 65536, n % 65536]

/-- IPv6 text form, written uncompressed (eight lowercase hex groups).
CPython's `str(IPv6Address)` compresses the longest zero run with '::';
both spellings parse to the same address, and no claim depends on the
compressed spelling, so compression is not modelled. -/
def formatIPv6 (n : Nat) : List Char :=
  joinWithChar ':' ((hextetsOf n).map (natToChars 16))

/-- CPython `str(ipaddress.ip_address(...))` on a parsed address. -/
def str_ip : IPAddr → String
  | IPAddr.v4 n => ⟨formatIPv4 n⟩
  | IPAddr.v6 n => ⟨formatIPv6 n⟩

/-- The integer values representable by each address family. -/
def validAddr : IPAddr → Prop
  | IPAddr.v4 n => n < 2 ^ 32
  | IPAddr.v6 n => n < 2 ^ 128

/-- Membership in `ipaddress.ip_network('100.64.0.0/10')`: same version
(IPv4) and the top 10 bits equal to those of 100.64.0.0
(100·2²⁴ + 64·2¹⁶ = 1681915904 = 401·2²²). -/
def isInCgnBlock : IPAddr → Bool
  | IPAddr.v4 n => n / 4194304 == 401
  | IPAddr.v6 _ => false

/-- `NetworkPerformanceTester._is_cgn_ip`.  The source wraps the
membership test in `try/except ipaddress.AddressValueError`, but the
`ipaddress.ip_address` factory raises a plain `ValueError` on malformed
text, which that except clause does not catch — so a malformed argument
propagates `ValueError` to the caller instead of yielding `False`. -/
def _is_cgn_ip (s : String) : Except PyErr Bool :=
  match ip_address s with
  | some a => Except.ok (isInCgnBlock a)
  | none => Except.error PyErr.valueError

/-! ## Round-trip lemmas: formatted addresses re-parse to themselves -/

theorem splitOnChar_not_mem (c : Char) :
    ∀ l : List Char, c ∉ l → splitOnChar c l = [l] := by
  intro l
  induction l with
  | nil => intro _; rfl
  | cons x xs ih =>
    intro h
    have hx : ¬ (x == c) = true := by
      simp only [beq_iff_eq]
      exact fun hxc => h (hxc ▸ List.mem_cons_self x xs)
    have hxs : c ∉ xs := fun hm => h (List.mem_cons_of_mem x hm)
    simp only [splitOnChar, if_neg hx, ih hxs]

theorem splitOnChar_append (c : Char) :
    ∀ xs rest : List Char, c ∉ xs →
      splitOnChar c (xs ++ c :: rest) = xs :: splitOnChar c rest := by
  intro xs
  induction xs with
  | nil =>
    intro rest _
    simp only [List.nil_append, splitOnChar, if_pos (by simp : (c == c) = true)]
  | cons y ys ih =>
    intro rest h
    have hy : ¬ (y == c) = true := by
      simp only [beq_iff_eq]
      exact fun hyc => h (hyc ▸ List.mem_cons_self y ys)
    have hys : c ∉ ys := fun hm => h (List.mem_cons_of_mem y hm)
    simp only [List.cons_append, splitOnChar, if_neg hy]
    rw [show ys.append (c :: rest) = ys ++ c :: rest from rfl, ih rest hys]

theorem splitOnChar_join (c : Char) :
    ∀ parts : List (List Char), parts ≠ [] → (∀ p ∈ parts, c ∉ p) →
      splitOnChar c (joinWithChar c parts) = parts := by
  intro parts
  induction parts with
  | nil => intro h; exact absurd rfl h
  | cons p ps ih =>
    intro _ hmem
    match ps with
    | [] => exact splitOnChar_not_mem c p (hmem p (List.mem_cons_self p []))
    | q :: qs =>
      have h1 : joinWithChar c (p :: q :: qs) = p ++ c :: joinWithChar c (q :: qs) := rfl
      rw [h1, splitOnChar_append c p _ (hmem p (List.mem_cons_self p (q :: qs))),
        ih (by simp) (fun x hx => hmem x (List.mem_cons_of_mem p hx))]

theorem hexDigitChar_props : ∀ d : Fin 16,
    hexDigitChar d.val ≠ '.' ∧ hexDigitChar d.val ≠ ':' ∧
      isHexDigitChar (hexDigitChar d.val) = true ∧
      pyIsSpaceChar (hexDigitChar d.val) = false := by decide

theorem decDigitChar_prop : ∀ d : Fin 10, isDecDigitChar (hexDigitChar d.val) = true := by
  decide

theorem hexDigitChar_ne_zero_char : ∀ d : Fin 16, 0 < d.val → hexDigitChar d.val ≠ '0' := by
  decide

theorem natToChars_no_dot (b n : Nat) (hb2 : 2 ≤ b) (hb16 : b ≤ 16) :
    '.' ∉ natToChars b n := by
  intro h
  obtain ⟨d, hd, he⟩ := mem_natToChars b n hb2 hb16 _ h
  exact (hexDigitChar_props ⟨d, by omega⟩).1 he.symm

theorem natToChars_no_colon (b n : Nat) (hb2 : 2 ≤ b) (hb16 : b ≤ 16) :
    ':' ∉ natToChars b n := by
  intro h
  obtain ⟨d, hd, he⟩ := mem_natToChars b n hb2 hb16 _ h
  exact (hexDigitChar_props ⟨d, by omega⟩).2.1 he.symm

theorem natToChars_all_hex (b n : Nat) (hb2 : 2 ≤ b) (hb16 : b ≤ 16) :
    (natToChars b n).all isHexDigitChar = true := by
  rw [List.all_eq_true]
  intro c hc
  obtain ⟨d, hd, he⟩ := mem_natToChars b n hb2 hb16 _ hc
  exact he ▸ (hexDigitChar_props ⟨d, by omega⟩).2.2.1

theorem natToChars10_all_dec (n : Nat) :
    (natToChars 10 n).all isDecDigitChar = true := by
  rw [List.all_eq_true]
  intro c hc
  obtain ⟨d, hd, he⟩ := mem_natToChars 10 n (by omega) (by omega) _ hc
  exact he ▸ decDigitChar_prop ⟨d, hd⟩

theorem natToChars_isEmpty (b n : Nat) : (natToChars b n).isEmpty = false := by
  rw [List.isEmpty_eq_false_iff_exists_mem]
  match h : natToChars b n with
  | [] => exact absurd h (natToChars_ne_nil b n)
  | c :: _ => exact ⟨c, List.mem_cons_self _ _⟩

theorem natToChars_len (b n k : Nat) (hb2 : 2 ≤ b) (hk : 1 ≤ k) (h : n < b ^ k) :
    (natToChars b n).length ≤ k := by
  by_cases hn : n = 0
  · simp [natToChars, hn]; omega
  · simp only [natToChars, if_neg hn, List.length_reverse, List.length_map]
    exact toDigitsLE_len b n k hb2 h

theorem natToChars_headD (b n : Nat) (hb2 : 2 ≤ b) (hb16 : b ≤ 16) (hn : 0 < n) :
    ¬ ((natToChars b n).headD ' ' == '0') = true := by
  obtain ⟨d, ds, heq, hd1, hd2⟩ := toDigitsLE_msd b n hb2 (by omega)
  simp only [natToChars, if_neg (by omega : ¬ n = 0), heq, List.map_append,
    List.reverse_append, beq_iff_eq]
  simp only [List.map_cons, List.map_nil, List.reverse_cons, List.reverse_nil,
    List.nil_append, List.cons_append, List.headD_cons]
  exact hexDigitChar_ne_zero_char ⟨d, by omega⟩ hd1

theorem parse_octet_natToChars (m : Nat) (hm : m ≤ 255) :
    parse_octet (natToChars 10 m) = some m := by
  unfold parse_octet
  rw [if_neg (by simp [natToChars_isEmpty])]
  rw [if_neg (by simp [natToChars10_all_dec])]
  rw [if_neg (by
    have := natToChars_len 10 m 3 (by omega) (by omega) (by omega)
    omega)]
  rw [if_neg (by
    by_cases hm0 : m = 0
    · subst hm0; decide
    · simp only [Bool.and_eq_true, not_and]
      intro _
      exact natToChars_headD 10 m (by omega) (by omega) (by omega))]
  rw [parseNatCore_natToChars 10 m (by omega) (by omega)]
  simp [hm]

theorem parse_hextet_natToChars (m : Nat) (hm : m < 65536) :
    parse_hextet (natToChars 16 m) = some m := by
  unfold parse_hextet
  rw [if_neg (by simp [natToChars_all_hex 16 m (by omega) (by omega)])]
  rw [if_neg (by
    have := natToChars_len 16 m 4 (by omega) (by omega) (by omega)
    omega)]
  exact parseNatCore_natToChars 16 m (by omega) (by omega)

theorem parseIPv4_formatIPv4 (n : Nat) (hn : n < 2 ^ 32) :
    parseIPv4Core (formatIPv4 n) = some n := by
  have hd : ∀ m : Nat, '.' ∉ natToChars 10 m := fun m =>
    natToChars_no_dot 10 m (by omega) (by omega)
  have hsplit : splitOnChar '.' (formatIPv4 n) =
      [natToChars 10 (n / 16777216 % 256), natToChars 10 (n / 65536 % 256),
       natToChars 10 (n / 256 % 256), natToChars 10 (n % 256)] := by
    unfold formatIPv4
    rw [splitOnChar_append _ _ _ (hd _), splitOnChar_append _ _ _ (hd _),
      splitOnChar_append _ _ _ (hd _), splitOnChar_not_mem _ _ (hd _)]
  have p1 := parse_octet_natToChars (n / 16777216 % 256) (by omega)
  have p2 := parse_octet_natToChars (n / 65536 % 256) (by omega)
  have p3 := parse_octet_natToChars (n / 256 % 256) (by omega)
  have p4 := parse_octet_natToChars (n % 256) (by omega)
  unfold parseIPv4Core
  rw [hsplit]
  rw [if_neg (by simp)]
  simp only [optMapM, p1, p2, p3, p4, Option.some_bind, Option.map_some',
    List.foldl_cons, List.foldl_nil, foldByteStep, Option.some.injEq]
  omega

theorem foldl_parseDigitStep_none (b : Nat) :
    ∀ cs : List Char, cs.foldl (parseDigitStep b) none = none := by
  intro cs
  induction cs with
  | nil => rfl
  | cons c cs ih => simp only [List.foldl_cons, parseDigitStep, Option.none_bind]; exact ih

theorem foldl_parseDigitStep_bound (b : Nat) (hb : 2 ≤ b) :
    ∀ (cs : List Char) (a v : Nat),
      cs.foldl (parseDigitStep b) (some a) = some v → v < (a + 1) * b ^ cs.length := by
  intro cs
  induction cs with
  | nil =>
    intro a v h
    simp only [List.foldl_nil, Option.some.injEq] at h
    subst h
    simp
  | cons c cs ih =>
    intro a v h
    simp only [List.foldl_cons] at h
    cases hstep : parseDigitStep b (some a) c with
    | none => rw [hstep, foldl_parseDigitStep_none] at h; exact absurd h (by simp)
    | some a2 =>
      rw [hstep] at h
      have hd : ∃ d, hexVal c = some d ∧ d < b ∧ a2 = a * b + d := by
        simp only [parseDigitStep, Option.some_bind] at hstep
        cases hhv : hexVal c with
        | none => rw [hhv] at hstep; simp at hstep
        | some d =>
          rw [hhv] at hstep
          simp only [Option.some_bind] at hstep
          by_cases hdb : d < b
          · rw [if_pos hdb] at hstep
            exact ⟨d, rfl, hdb, (Option.some.injEq _ _).mp hstep.symm⟩
          · rw [if_neg hdb] at hstep; simp at hstep
      obtain ⟨d, _, hdb, rfl⟩ := hd
      calc v < (a * b + d + 1) * b ^ cs.length := ih _ v h
        _ ≤ ((a + 1) * b) * b ^ cs.length := by
            have h1 : a * b + d + 1 ≤ (a + 1) * b := by
              have h2 : (a + 1) * b = a * b + b := by ring
              omega
            exact Nat.mul_le_mul_right _ h1
        _ = (a + 1) * b ^ (cs.length + 1) := by ring
        _ = (a + 1) * b ^ (c :: cs).length := by rw [List.length_cons]

theorem parseNatCore_bound (b : Nat) (hb : 2 ≤ b) (cs : List Char) (v : Nat)
    (h : parseNatCore b cs = some v) : v < b ^ cs.length := by
  unfold parseNatCore at h
  split at h
  · exact absurd h (by simp)
  · have := foldl_parseDigitStep_bound b hb cs 0 v h
    simpa using this

theorem parse_octet_le (cs : List Char) (v : Nat) (h : parse_octet cs = some v) :
    v ≤ 255 := by
  unfold parse_octet at h
  split at h; · exact absurd h (by simp)
  split at h; · exact absurd h (by simp)
  split at h; · exact absurd h (by simp)
  split at h; · exact absurd h (by simp)
  cases hp : parseNatCore 10 cs with
  | none => rw [hp] at h; exact absurd h (by simp)
  | some n =>
    rw [hp] at h
    simp only [Option.some_bind] at h
    split at h
    next h255 => simp only [Option.some.injEq] at h; omega
    next => exact absurd h (by simp)

theorem parse_hextet_lt (cs : List Char) (v : Nat) (h : parse_hextet cs = some v) :
    v < 65536 := by
  unfold parse_hextet at h
  split at h; · exact absurd h (by simp)
  split at h; · exact absurd h (by simp)
  case _ hlen =>
    have hb := parseNatCore_bound 16 (by omega) cs v h
    have hle : cs.length ≤ 4 := by omega
    calc v < 16 ^ cs.length := hb
      _ ≤ 16 ^ 4 := Nat.pow_le_pow_right (by omega) hle
      _ = 65536 := by norm_num

theorem optMapM_mem {α β : Type} (f : α → Option β) :
    ∀ (l : List α) (ys : List β), optMapM f l = some ys →
      ∀ y ∈ ys, ∃ x ∈ l, f x = some y := by
  intro l
  induction l with
  | nil =>
    intro ys h y hy
    simp only [optMapM, Option.some.injEq] at h
    subst h
    simp at hy
  | cons x xs ih =>
    intro ys h y hy
    simp only [optMapM] at h
    cases hfx : f x with
    | none => rw [hfx] at h; simp at h
    | some b =>
      rw [hfx] at h
      simp only [Option.some_bind] at h
      cases hrest : optMapM f xs with
      | none => rw [hrest] at h; simp at h
      | some bs =>
        rw [hrest] at h
        simp only [Option.map_some', Option.some.injEq] at h
        subst h
        rcases List.mem_cons.mp hy with rfl | hmem
        · exact ⟨x, List.mem_cons_self x xs, hfx⟩
        · obtain ⟨x2, hx2, hfx2⟩ := ih bs hrest y hmem
          exact ⟨x2, List.mem_cons_of_mem x hx2, hfx2⟩

theorem optMapM_len {α β : Type} (f : α → Option β) :
    ∀ (l : List α) (ys : List β), optMapM f l = some ys → ys.length = l.length := by
  intro l
  induction l with
  | nil =>
    intro ys h
    simp only [optMapM, Option.some.injEq] at h
    subst h
    rfl
  | cons x xs ih =>
    intro ys h
    simp only [optMapM] at h
    cases hfx : f x with
    | none => rw [hfx] at h; simp at h
    | some b =>
      rw [hfx] at h
      simp only [Option.some_bind] at h
      cases hrest : optMapM f xs with
      | none => rw [hrest] at h; simp at h
      | some bs =>
        rw [hrest] at h
        simp only [Option.map_some', Option.some.injEq] at h
        subst h
        simp [ih bs hrest]

theorem foldHex_bound :
    ∀ (ds : List Nat) (a : Nat), (∀ d ∈ ds, d < 65536) →
      ds.foldl foldHexStep a < (a + 1) * 65536 ^ ds.length := by
  intro ds
  induction ds with
  | nil => intro a _; simp
  | cons d ds ih =>
    intro a hd
    simp only [List.foldl_cons, foldHexStep, List.length_cons]
    calc ds.foldl foldHexStep (a * 65536 + d)
        < (a * 65536 + d + 1) * 65536 ^ ds.length :=
          ih _ (fun x hx => hd x (List.mem_cons_of_mem d hx))
      _ ≤ ((a + 1) * 65536) * 65536 ^ ds.length := by
          have h1 : d < 65536 := hd d (List.mem_cons_self d ds)
          have h2 : a * 65536 + d + 1 ≤ (a + 1) * 65536 := by
            have h3 : (a + 1) * 65536 = a * 65536 + 65536 := by ring
            omega
          exact Nat.mul_le_mul_right _ h2
      _ = (a + 1) * 65536 ^ (ds.length + 1) := by ring

theorem skipValueBound (hs ls : List Nat) (hi lo : Nat)
    (hhs : ∀ x ∈ hs, x < 65536) (hls : ∀ x ∈ ls, x < 65536)
    (lhs2 : hs.length ≤ hi) (lls : ls.length ≤ lo) (hsum : hi + lo < 8) :
    ls.foldl foldHexStep (hs.foldl foldHexStep 0 * 65536 ^ (8 - (hi + lo))) < 2 ^ 128 := by
  have hy1 : 1 ≤ (65536 : Nat) ^ (8 - (hi + lo)) := Nat.one_le_pow _ _ (by omega)
  have hx1 : 1 ≤ (65536 : Nat) ^ hi := Nat.one_le_pow _ _ (by omega)
  have hv1 : hs.foldl foldHexStep 0 < 65536 ^ hi := by
    calc hs.foldl foldHexStep 0 < (0 + 1) * 65536 ^ hs.length := foldHex_bound hs 0 hhs
      _ = 65536 ^ hs.length := by ring
      _ ≤ 65536 ^ hi := Nat.pow_le_pow_right (by omega) lhs2
  have hv2 : hs.foldl foldHexStep 0 * 65536 ^ (8 - (hi + lo)) + 1 ≤
      65536 ^ (hi + (8 - (hi + lo))) := by
    calc hs.foldl foldHexStep 0 * 65536 ^ (8 - (hi + lo)) + 1
        ≤ (65536 ^ hi - 1) * 65536 ^ (8 - (hi + lo)) + 1 :=
          Nat.add_le_add_right (Nat.mul_le_mul_right _ (by omega)) 1
      _ ≤ (65536 ^ hi - 1) * 65536 ^ (8 - (hi + lo)) + 65536 ^ (8 - (hi + lo)) :=
          Nat.add_le_add_left hy1 _
      _ = (65536 ^ hi - 1 + 1) * 65536 ^ (8 - (hi + lo)) := by ring
      _ = 65536 ^ hi * 65536 ^ (8 - (hi + lo)) := by rw [Nat.sub_add_cancel hx1]
      _ = 65536 ^ (hi + (8 - (hi + lo))) := (pow_add 65536 hi (8 - (hi + lo))).symm
  calc ls.foldl foldHexStep (hs.foldl foldHexStep 0 * 65536 ^ (8 - (hi + lo)))
      < (hs.foldl foldHexStep 0 * 65536 ^ (8 - (hi + lo)) + 1) * 65536 ^ ls.length :=
        foldHex_bound ls _ hls
    _ ≤ 65536 ^ (hi + (8 - (hi + lo))) * 65536 ^ lo :=
        Nat.mul_le_mul hv2 (Nat.pow_le_pow_right (by omega) lls)
    _ = 65536 ^ (hi + (8 - (hi + lo)) + lo) := (pow_add 65536 _ lo).symm
    _ ≤ 65536 ^ 8 := Nat.pow_le_pow_right (by omega) (by omega)
    _ = 2 ^ 128 := by norm_num

theorem foldByte_bound :
    ∀ (ds : List Nat) (a : Nat), (∀ d ∈ ds, d < 256) →
      ds.foldl foldByteStep a < (a + 1) * 256 ^ ds.length := by
  intro ds
  induction ds with
  | nil => intro a _; simp
  | cons d ds ih =>
    intro a hd
    simp only [List.foldl_cons, foldByteStep, List.length_cons]
    calc ds.foldl foldByteStep (a * 256 + d)
        < (a * 256 + d + 1) * 256 ^ ds.length :=
          ih _ (fun x hx => hd x (List.mem_cons_of_mem d hx))
      _ ≤ ((a + 1) * 256) * 256 ^ ds.length := by
          have h1 : d < 256 := hd d (List.mem_cons_self d ds)
          have h2 : a * 256 + d + 1 ≤ (a + 1) * 256 := by
            have h3 : (a + 1) * 256 = a * 256 + 256 := by ring
            omega
          exact Nat.mul_le_mul_right _ h2
      _ = (a + 1) * 256 ^ (ds.length + 1) := by ring

theorem parseIPv4Core_lt (cs : List Char) (v : Nat) (h : parseIPv4Core cs = some v) :
    v < 2 ^ 32 := by
  unfold parseIPv4Core at h
  simp only at h
  split at h
  · exact absurd h (by simp)
  next hlen =>
    cases hm : optMapM parse_octet (splitOnChar '.' cs) with
    | none => rw [hm] at h; exact absurd h (by simp)
    | some vs =>
      rw [hm] at h
      simp only [Option.map_some', Option.some.injEq] at h
      subst h
      have hmem : ∀ x ∈ vs, x < 256 := by
        intro x hx
        obtain ⟨o, _, ho⟩ := optMapM_mem parse_octet _ vs hm x hx
        have := parse_octet_le o x ho
        omega
      have hlen4 : vs.length = 4 := by
        rw [optMapM_len parse_octet _ vs hm]
        omega
      calc vs.foldl foldByteStep 0 < (0 + 1) * 256 ^ vs.length := foldByte_bound vs 0 hmem
        _ = 256 ^ vs.length := by ring
        _ = 2 ^ 32 := by rw [hlen4]; norm_num

theorem ipv6SkipValue_lt (parts : List (List Char)) (hi lo v : Nat)
    (hsum : hi + lo < 8)
    (h : ipv6SkipValue parts hi lo = some v) : v < 2 ^ 128 := by
  unfold ipv6SkipValue at h
  cases hhs : optMapM parse_hextet (parts.take hi) with
  | none => rw [hhs] at h; exact absurd h (by simp)
  | some hs =>
    rw [hhs] at h
    cases hls : optMapM parse_hextet (parts.drop (parts.length - lo)) with
    | none => rw [hls] at h; exact absurd h (by simp)
    | some ls =>
      rw [hls] at h
      simp only [Option.some.injEq] at h
      subst h
      have hhsm : ∀ x ∈ hs, x < 65536 := by
        intro x hx
        obtain ⟨o, _, ho⟩ := optMapM_mem parse_hextet _ hs hhs x hx
        exact parse_hextet_lt o x ho
      have hlsm : ∀ x ∈ ls, x < 65536 := by
        intro x hx
        obtain ⟨o, _, ho⟩ := optMapM_mem parse_hextet _ ls hls x hx
        exact parse_hextet_lt o x ho
      have hhl : hs.length ≤ hi := by
        rw [optMapM_len parse_hextet _ hs hhs, List.length_take]
        exact Nat.min_le_left _ _
      have hll : ls.length ≤ lo := by
        rw [optMapM_len parse_hextet _ ls hls, List.length_drop]
        omega
      exact skipValueBound hs ls hi lo hhsm hlsm hhl hll hsum

theorem ipv6NoSkipValue_lt (parts : List (List Char)) (v : Nat)
    (hlen : parts.length = 8)
    (h : (optMapM parse_hextet parts).map (fun hs => hs.foldl foldHexStep 0) =
      some v) : v < 2 ^ 128 := by
  cases hm : optMapM parse_hextet parts with
  | none => rw [hm] at h; exact absurd h (by simp)
  | some vs =>
    rw [hm] at h
    simp only [Option.map_some', Option.some.injEq] at h
    subst h
    have hmem : ∀ x ∈ vs, x < 65536 := by
      intro x hx
      obtain ⟨o, _, ho⟩ := optMapM_mem parse_hextet _ vs hm x hx
      exact parse_hextet_lt o x ho
    have hlen8 : vs.length = 8 := by
      rw [optMapM_len parse_hextet _ vs hm, hlen]
    calc vs.foldl foldHexStep 0 < (0 + 1) * 65536 ^ vs.length :=
          foldHex_bound vs 0 hmem
      _ = 65536 ^ vs.length := by ring
      _ = 2 ^ 128 := by rw [hlen8]; norm_num

theorem parseIPv6Core_lt (cs : List Char) (v : Nat) (h : parseIPv6Core cs = some v) :
    v < 2 ^ 128 := by
  simp only [parseIPv6Core] at h
  split at h; · exact absurd h (by simp)
  split at h; · exact absurd h (by simp)
  split at h
  · exact absurd h (by simp)
  next parts heq =>
    split at h; · exact absurd h (by simp)
    cases hscan : scanEmpties ((parts.drop 1).dropLast) 1 with
    | none => rw [hscan] at h; exact absurd h (by simp)
    | some oi =>
      rw [hscan] at h
      cases oi with
      | none =>
        simp only [] at h
        repeat' split at h
        all_goals
          first
          | exact ipv6NoSkipValue_lt parts v (by omega) h
          | exact absurd h (by simp)
      | some si =>
        simp only [] at h
        repeat' split at h
        all_goals
          first
          | exact ipv6SkipValue_lt parts _ _ v (by omega) h
          | exact absurd h (by simp)

theorem natToChars_any_dot (b m : Nat) (hb2 : 2 ≤ b) (hb16 : b ≤ 16) :
    ((natToChars b m).any fun c => c == '.') = false := by
  rw [Bool.eq_false_iff]
  intro hany
  rw [List.any_eq_true] at hany
  obtain ⟨x, hx, hbx⟩ := hany
  rw [beq_iff_eq] at hbx
  subst hbx
  exact natToChars_no_dot b m hb2 hb16 hx

theorem parseIPv6_join (s1 s2 s3 s4 s5 s6 s7 s8 : Nat)
    (h1 : s1 < 65536) (h2 : s2 < 65536) (h3 : s3 < 65536) (h4 : s4 < 65536)
    (h5 : s5 < 65536) (h6 : s6 < 65536) (h7 : s7 < 65536) (h8 : s8 < 65536) :
    parseIPv6Core (joinWithChar ':'
      [natToChars 16 s1, natToChars 16 s2, natToChars 16 s3, natToChars 16 s4,
       natToChars 16 s5, natToChars 16 s6, natToChars 16 s7, natToChars 16 s8]) =
      some ([s1, s2, s3, s4, s5, s6, s7, s8].foldl foldHexStep 0) := by
  have hc : ∀ m : Nat, ':' ∉ natToChars 16 m := fun m =>
    natToChars_no_colon 16 m (by omega) (by omega)
  have hsplit : splitOnChar ':' (joinWithChar ':'
      [natToChars 16 s1, natToChars 16 s2, natToChars 16 s3, natToChars 16 s4,
       natToChars 16 s5, natToChars 16 s6, natToChars 16 s7, natToChars 16 s8]) =
      [natToChars 16 s1, natToChars 16 s2, natToChars 16 s3, natToChars 16 s4,
       natToChars 16 s5, natToChars 16 s6, natToChars 16 s7, natToChars 16 s8] := by
    refine splitOnChar_join ':' _ (by simp) ?_
    intro p hp
    simp only [List.mem_cons, List.not_mem_nil, or_false] at hp
    rcases hp with rfl | rfl | rfl | rfl | rfl | rfl | rfl | rfl <;> exact hc _
  have hne : (joinWithChar ':'
      [natToChars 16 s1, natToChars 16 s2, natToChars 16 s3, natToChars 16 s4,
       natToChars 16 s5, natToChars 16 s6, natToChars 16 s7, natToChars 16 s8]).isEmpty
      = false := by
    rw [List.isEmpty_eq_false_iff_exists_mem]
    refine ⟨':', ?_⟩
    rw [show joinWithChar ':'
      [natToChars 16 s1, natToChars 16 s2, natToChars 16 s3, natToChars 16 s4,
       natToChars 16 s5, natToChars 16 s6, natToChars 16 s7, natToChars 16 s8] =
      natToChars 16 s1 ++ ':' :: joinWithChar ':'
      [natToChars 16 s2, natToChars 16 s3, natToChars 16 s4,
       natToChars 16 s5, natToChars 16 s6, natToChars 16 s7, natToChars 16 s8] from rfl]
    exact List.mem_append_right _ (List.mem_cons_self _ _)
  have hp1 := parse_hextet_natToChars s1 h1
  have hp2 := parse_hextet_natToChars s2 h2
  have hp3 := parse_hextet_natToChars s3 h3
  have hp4 := parse_hextet_natToChars s4 h4
  have hp5 := parse_hextet_natToChars s5 h5
  have hp6 := parse_hextet_natToChars s6 h6
  have hp7 := parse_hextet_natToChars s7 h7
  have hp8 := parse_hextet_natToChars s8 h8
  simp only [parseIPv6Core, hne, hsplit]
  norm_num [natToChars_isEmpty, natToChars_any_dot, scanEmpties, optMapM, foldHexStep,
    hp1, hp2, hp3, hp4, hp5, hp6, hp7, hp8]

theorem parseIPv6_formatIPv6 (n : Nat) (hn : n < 2 ^ 128) :
    parseIPv6Core (formatIPv6 n) = some n := by
  have hj := parseIPv6_join (n / 2 ^ 112 % 65536) (n / 2 ^ 96 % 65536)
    (n / 2 ^ 80 % 65536) (n / 2 ^ 64 % 65536) (n / 2 ^ 48 % 65536)
    (n / 2 ^ 32 % 65536) (n / 2 ^ 16 % 65536) (n % 65536)
    (Nat.mod_lt _ (by norm_num)) (Nat.mod_lt _ (by norm_num))
    (Nat.mod_lt _ (by norm_num)) (Nat.mod_lt _ (by norm_num))
    (Nat.mod_lt _ (by norm_num)) (Nat.mod_lt _ (by norm_num))
    (Nat.mod_lt _ (by norm_num)) (Nat.mod_lt _ (by norm_num))
  rw [show formatIPv6 n = joinWithChar ':'
      [natToChars 16 (n / 2 ^ 112 % 65536), natToChars 16 (n / 2 ^ 96 % 65536),
       natToChars 16 (n / 2 ^ 80 % 65536), natToChars 16 (n / 2 ^ 64 % 65536),
       natToChars 16 (n / 2 ^ 48 % 65536), natToChars 16 (n / 2 ^ 32 % 65536),
       natToChars 16 (n / 2 ^ 16 % 65536), natToChars 16 (n % 65536)] from rfl]
  rw [hj]
  simp only [List.foldl_cons, List.foldl_nil, foldHexStep, Option.some.injEq]
  rw [show (2 : ℕ) ^ 112 = 5192296858534827628530496329220096 from by norm_num,
    show (2 : ℕ) ^ 96 = 79228162514264337593543950336 from by norm_num,
    show (2 : ℕ) ^ 80 = 1208925819614629174706176 from by norm_num,
    show (2 : ℕ) ^ 64 = 18446744073709551616 from by norm_num,
    show (2 : ℕ) ^ 48 = 281474976710656 from by norm_num,
    show (2 : ℕ) ^ 32 = 4294967296 from by norm_num,
    show (2 : ℕ) ^ 16 = 65536 from by norm_num]
  rw [show (2 : ℕ) ^ 128 = 340282366920938463463374607431768211456 from by norm_num] at hn
  omega

theorem mem_joinWithChar (c : Char) :
    ∀ (parts : List (List Char)) (x : Char), x ∈ joinWithChar c parts →
      x = c ∨ ∃ p ∈ parts, x ∈ p := by
  intro parts
  induction parts with
  | nil => intro x hx; simp [joinWithChar] at hx
  | cons p ps ih =>
    intro x hx
    match ps with
    | [] => exact Or.inr ⟨p, by simp, hx⟩
    | q :: qs =>
      rw [show joinWithChar c (p :: q :: qs) = p ++ c :: joinWithChar c (q :: qs)
        from rfl] at hx
      rcases List.mem_append.mp hx with hp | hcons
      · exact Or.inr ⟨p, by simp, hp⟩
      · rcases List.mem_cons.mp hcons with rfl | hin
        · exact Or.inl rfl
        · rcases ih x hin with hxc | ⟨r, hr, hxr⟩
          · exact Or.inl hxc
          · exact Or.inr ⟨r, List.mem_cons_of_mem p hr, hxr⟩

theorem formatIPv6_no_dot (n : Nat) : '.' ∉ formatIPv6 n := by
  intro h
  unfold formatIPv6 at h
  rcases mem_joinWithChar ':' _ '.' h with hc | ⟨p, hp, hxp⟩
  · exact absurd hc (by decide)
  · obtain ⟨m, _, rfl⟩ := List.mem_map.mp hp
    exact natToChars_no_dot 16 m (by omega) (by omega) hxp

theorem parseIPv4_formatIPv6 (n : Nat) : parseIPv4Core (formatIPv6 n) = none := by
  unfold parseIPv4Core
  rw [splitOnChar_not_mem '.' _ (formatIPv6_no_dot n)]
  simp

theorem ip_address_str_ip (a : IPAddr) (h : validAddr a) :
    ip_address (str_ip a) = some a := by
  cases a with
  | v4 n =>
    simp only [validAddr] at h
    simp only [ip_address, str_ip]
    rw [parseIPv4_formatIPv4 n h]
  | v6 n =>
    simp only [validAddr] at h
    simp only [ip_address, str_ip]
    rw [parseIPv4_formatIPv6 n, parseIPv6_formatIPv6 n h]

theorem ip_address_valid (s : String) (a : IPAddr) (h : ip_address s = some a) :
    validAddr a := by
  unfold ip_address at h
  cases h4 : parseIPv4Core s.data with
  | some m =>
    rw [h4] at h
    simp only [Option.some.injEq] at h
    subst h
    exact parseIPv4Core_lt _ _ h4
  | none =>
    rw [h4] at h
    cases h6 : parseIPv6Core s.data with
    | some m =>
      rw [h6] at h
      simp only [Option.some.injEq] at h
      subst h
      exact parseIPv6Core_lt _ _ h6
    | none => rw [h6] at h; exact absurd h (by simp)

/-- The string form of any parsed address re-parses to the same address, so
`_is_cgn_ip` never raises on it. -/
theorem is_cgn_ip_str_ip (a : IPAddr) (h : validAddr a) :
    _is_cgn_ip (str_ip a) = Except.ok (isInCgnBlock a) := by
  unfold _is_cgn_ip
  rw [ip_address_str_ip a h]

/-! ## Policy/Registry Loader (`_parse_zone_file`)

The file is modelled as its list of lines.  The missing-file case (caught
`FileNotFoundError`, empty registry) corresponds to the empty line list. -/

/-- Zone record types retained by the loader. -/
inductive RType where
  | A
  | CNAME
deriving DecidableEq, Repr

/-- The value stored per domain: `{'type': ..., 'target': ...}`. -/
structure ZoneRecord where
  type : RType
  target : String
deriving DecidableEq, Repr

/-- Python dict assignment `d[k] = v`: replace in place if the key exists,
else append (insertion order preserved, keys unique). -/
def dictSet (d : List (String × ZoneRecord)) (k : String) (v : ZoneRecord) :
    List (String × ZoneRecord) :=
  if d.any (fun p => p.1 == k) then
    d.map (fun p => if p.1 == k then (k, v) else p)
  else d ++ [(k, v)]

/-- One iteration of the loader's line loop.  Note the guard in the source
is `len(parts) < 4`, yet `parts[4]` is read unconditionally afterwards: a
line with exactly 4 whitespace-separated fields reaches `target = parts[4]`
and raises `IndexError` (not caught — the only handler is for
`FileNotFoundError`). -/
def zoneLineStep (acc : List (String × ZoneRecord)) (line : String) :
    Except PyErr (List (String × ZoneRecord)) :=
  let s := pyStrip line
  if s == "" || startsWithChar ';' s || startsWithChar '$' s then Except.ok acc
  else
    match splitWS s with
    | p0 :: _p1 :: _p2 :: p3 :: rest =>
      match rest with
      | [] => Except.error PyErr.indexError
      | p4 :: _ =>
        let domain := rstripDot p0
        let record_type := pyUpper p3
        let target := p4
        if record_type == "A" then Except.ok (dictSet acc domain ⟨RType.A, target⟩)
        else if record_type == "CNAME" then
          Except.ok (dictSet acc domain ⟨RType.CNAME, rstripDot target⟩)
        else Except.ok acc
    | _ => Except.ok acc

/-- The loader's loop over the remaining lines, carrying the dict built so
far. -/
def parseZoneLines (acc : List (String × ZoneRecord)) :
    List String → Except PyErr (List (String × ZoneRecord))
  | [] => Except.ok acc
  | l :: ls =>
    match zoneLineStep acc l with
    | Except.error e => Except.error e
    | Except.ok acc2 => parseZoneLines acc2 ls

/-- `NetworkPerformanceTester._parse_zone_file` over the file's lines. -/
def _parse_zone_file (lines : List String) :
    Except PyErr (List (String × ZoneRecord)) :=
  parseZoneLines [] lines

/-! ## Median aggregation (`statistics.median`, `int(...)`) -/

/-- Ordered insertion into a sorted rational list. -/
def insertQ (x : ℚ) : List ℚ → List ℚ
  | [] => [x]
  | y :: ys => if x ≤ y then x :: y :: ys else y :: insertQ x ys

/-- Ascending sort (the multiset reading of Python's `sorted`). -/
def sortQ : List ℚ → List ℚ
  | [] => []
  | x :: xs => insertQ x (sortQ xs)

/-- `statistics.median`: middle element of the sorted data for odd length,
mean of the two middle elements for even length.  (The source only applies
it to non-empty lists; the empty case, where Python raises
`StatisticsError`, is given the junk value 0 and never used.) -/
def pyMedian (l : List ℚ) : ℚ :=
  let s := sortQ l
  let n := l.length
  if n = 0 then 0
  else if n % 2 = 1 then s.getD (n / 2) 0
  else (s.getD (n / 2 - 1) 0 + s.getD (n / 2) 0) / 2

/-- Python `int(float)`: truncation toward zero. -/
def pyIntTrunc (q : ℚ) : ℤ :=
  if q.num < 0 then -((q.num.natAbs / q.den : ℕ) : ℤ)
  else ((q.num.natAbs / q.den : ℕ) : ℤ)

/-- Floor of a rational (used only to state the spec's rounding). -/
def ratFloor (q : ℚ) : ℤ := q.num.fdiv (q.den : ℤ)

/-- The spec's words "rounded to an integer", read as rounding to the
nearest integer (ties upward): ⌊q + 1/2⌋.  Stated only to compare against
what the code computes. -/
def specRound (q : ℚ) : ℤ := ratFloor (q + 1 / 2)

/-! ## Structured iperf3 payloads and metric extraction

`json.loads` output is modelled as a tree; object keys are unique (Python
dicts).  `pyContains`/`pyIndex`/`pyGetD` model `key in x`, `x[key]` and
`x.get(key, default)` with Python's exception classes for each receiver
shape. -/

inductive JsonTree where
  | null
  | bool (b : Bool)
  | num (q : ℚ)
  | str (s : String)
  | arr (elems : List JsonTree)
  | obj (fields : List (String × JsonTree))

/-- `key in x` for a string key: dict key test, list membership (a string
equals only an equal string), substring test on strings, `TypeError`
otherwise. -/
def pyContains (j : JsonTree) (key : String) : Except PyErr Bool :=
  match j with
  | JsonTree.obj fs => Except.ok (fs.any (fun p => p.1 == key))
  | JsonTree.arr xs => Except.ok (xs.any (fun x =>
      match x with
      | JsonTree.str s => s == key
      | _ => false))
  | JsonTree.str s => Except.ok (containsSub key s)
  | _ => Except.error PyErr.typeError

/-- `x[key]` for a string key: dict lookup (`KeyError` when absent),
`TypeError` for every non-dict receiver. -/
def pyIndex (j : JsonTree) (key : String) : Except PyErr JsonTree :=
  match j with
  | JsonTree.obj fs =>
    match fs.find? (fun p => p.1 == key) with
    | some p => Except.ok p.2
    | none => Except.error PyErr.keyError
  | _ => Except.error PyErr.typeError

/-- `x.get(key, default)`: only dicts have `.get` — any other receiver
raises `AttributeError` (which the extractors' `except (KeyError,
TypeError)` does **not** catch). -/
def pyGetD (j : JsonTree) (key : String) (dflt : JsonTree) : Except PyErr JsonTree :=
  match j with
  | JsonTree.obj fs =>
    Except.ok (((fs.find? (fun p => p.1 == key)).map (fun p => p.2)).getD dflt)
  | _ => Except.error PyErr.attributeError

/-- Numeric reading of a JSON leaf, as Python arithmetic sees it
(`True`/`False` are 1/0; anything non-numeric raises `TypeError`).
A non-numeric metric leaf is thereby rejected at extraction time, where
CPython would store the raw value and fail later inside
`statistics.median`; both behaviours are failures and no claim depends on
the difference. -/
def asNum (j : JsonTree) : Except PyErr ℚ :=
  match j with
  | JsonTree.num q => Except.ok q
  | JsonTree.bool b => Except.ok (if b then 1 else 0)
  | _ => Except.error PyErr.typeError

/-- Body of `extract_bandwidth` (the `try` block), with Python's
evaluation order for the chained `and` conditions and indexings. -/
def extract_bandwidth_except (j : JsonTree) : Except PyErr ℚ := do
  let hasEnd ← pyContains j "end"
  if hasEnd then
    let e ← pyIndex j "end"
    let hasR ← pyContains e "sum_received"
    let c1 ← (if hasR then do
        let sr ← pyIndex e "sum_received"
        pyContains sr "bits_per_second"
      else pure false)
    if c1 then
      let sr ← pyIndex e "sum_received"
      let v ← pyIndex sr "bits_per_second"
      let q ← asNum v
      return q / 1000000
    else
      let hasS ← pyContains e "sum_sent"
      let c2 ← (if hasS then do
          let ss ← pyIndex e "sum_sent"
          pyContains ss "bits_per_second"
        else pure false)
      if c2 then
        let ss ← pyIndex e "sum_sent"
        let v ← pyIndex ss "bits_per_second"
        let q ← asNum v
        return q / 1000000
      else return 0
  else return 0

/-- `extract_bandwidth`: the body can only raise `KeyError`/`TypeError`,
both caught and turned into 0.0. -/
def extract_bandwidth (j : JsonTree) : ℚ :=
  match extract_bandwidth_except j with
  | Except.ok q => q
  | Except.error _ => 0

/-- Body of `extract_retransmits` (the `try` block). -/
def extract_retransmits_except (j : JsonTree) : Except PyErr ℚ := do
  let hasEnd ← pyContains j "end"
  let cond ← (if hasEnd then do
      let e ← pyIndex j "end"
      pyContains e "sum_sent"
    else pure false)
  if cond then
    let e ← pyIndex j "end"
    let ss ← pyIndex e "sum_sent"
    let v ← pyGetD ss "retransmits" (JsonTree.num 0)
    asNum v
  else return 0

/-- `extract_retransmits`: `except (KeyError, TypeError)` yields 0;
`AttributeError` (`.get` on a non-dict) propagates. -/
def extract_retransmits (j : JsonTree) : Except PyErr ℚ :=
  match extract_retransmits_except j with
  | Except.error PyErr.keyError => Except.ok 0
  | Except.error PyErr.typeError => Except.ok 0
  | r => r

/-- Body of `extract_jitter` (the `try` block). -/
def extract_jitter_except (j : JsonTree) : Except PyErr ℚ := do
  let hasEnd ← pyContains j "end"
  let cond ← (if hasEnd then do
      let e ← pyIndex j "end"
      pyContains e "sum"
    else pure false)
  if cond then
    let e ← pyIndex j "end"
    let ss ← pyIndex e "sum"
    let v ← pyGetD ss "jitter_ms" (JsonTree.num 0)
    asNum v
  else return 0

/-- `extract_jitter`, with the same handler as `extract_retransmits`. -/
def extract_jitter (j : JsonTree) : Except PyErr ℚ :=
  match extract_jitter_except j with
  | Except.error PyErr.keyError => Except.ok 0
  | Except.error PyErr.typeError => Except.ok 0
  | r => r

/-- Body of `extract_packet_loss` (the `try` block). -/
def extract_packet_loss_except (j : JsonTree) : Except PyErr ℚ := do
  let hasEnd ← pyContains j "end"
  let cond ← (if hasEnd then do
      let e ← pyIndex j "end"
      pyContains e "sum"
    else pure false)
  if cond then
    let e ← pyIndex j "end"
    let ss ← pyIndex e "sum"
    let v ← pyGetD ss "lost_percent" (JsonTree.num 0)
    asNum v
  else return 0

/-- `extract_packet_loss`, with the same handler as the other two. -/
def extract_packet_loss (j : JsonTree) : Except PyErr ℚ :=
  match extract_packet_loss_except j with
  | Except.error PyErr.keyError => Except.ok 0
  | Except.error PyErr.typeError => Except.ok 0
  | r => r

/-! ## Bandwidth Trial Runner (`run_iperf_test`) and Trial Aggregator -/

/-- An iperf scenario: display name and parameter tokens, one of which may
contain the placeholder. -/
structure Scenario where
  name : String
  params : List String

/-- Replace every occurrence of `pat` in the list, left to right; the fuel
is the list length (enough for a non-empty pattern, and `str.format` is
only ever called with the non-empty placeholder). -/
def replaceAux (pat repl : List Char) : Nat → List Char → List Char
  | _, [] => []
  | 0, l => l
  | fuel + 1, c :: cs =>
    if pat.isPrefixOf (c :: cs) then
      repl ++ replaceAux pat repl fuel ((c :: cs).drop pat.length)
    else c :: replaceAux pat repl fuel cs

/-- `param.format(server=server) if '{server}' in param else param`:
substitution of the endpoint placeholder (the scenarios' only
placeholder). -/
def pyFormatServer (server p : String) : String :=
  if containsSub "\x7bserver\x7d" p then
    ⟨replaceAux "\x7bserver\x7d".data server.data p.data.length p.data⟩
  else p

/-- Python `int(str)`: optional surrounding whitespace, optional sign,
non-empty decimal digits.  (Underscore digit separators are not
modelled.) -/
def pyInt (s : String) : Option Int :=
  match pyStripCore s.data with
  | '-' :: ds => (parseNatCore 10 ds).map fun n => -(n : Int)
  | '+' :: ds => (parseNatCore 10 ds).map fun n => (n : Int)
  | ds => (parseNatCore 10 ds).map fun n => (n : Int)

/-- The timeout scan: `timeout_sec = 60`, then for every parameter that
equals "-t" and has a successor, try `int(successor) + 20`, keeping the
previous value on `ValueError`. -/
def ctGo (t : Int) : List String → Int
  | p :: q :: rest =>
    ctGo (if p == "-t" then (match pyInt q with | some n => n + 20 | none => t) else t)
      (q :: rest)
  | _ => t

/-- The computed subprocess timeout of `run_iperf_test`. -/
def computeTimeout (params : List String) : Int := ctGo 60 params

/-- One bandwidth trial's record (the per-invocation result dict).  Keys
that a branch does not set are `none`: the metric keys exist only on
success, `error` only on failure. -/
structure TrialResult where
  server : String
  scenario : String
  success : Bool
  duration : ℚ
  data : JsonTree
  bandwidth_mbps : Option ℚ
  retransmits : Option ℚ
  jitter_ms : Option ℚ
  packet_loss : Option ℚ
  error : Option String

/-- What `subprocess.run` handed back for an iperf3 invocation: stdout is
empty, non-empty but not JSON, or parsed JSON. -/
inductive IperfStdout where
  | empty
  | malformed
  | parsed (j : JsonTree)

/-- The external behaviour of one iperf3 invocation. -/
inductive IperfOutcome where
  | timedOut
  | completed (returncode : Int) (stdout : IperfStdout) (stderr : String) (elapsed : ℚ)

/-- `NetworkPerformanceTester.run_iperf_test`.  The `Except` layer carries
the one uncaught exception the body can raise (`AttributeError` out of the
`.get` extractors on adversarial payload shapes). -/
def run_iperf_test (server : String) (sc : Scenario) (outcome : IperfOutcome) :
    Except PyErr TrialResult :=
  let params := sc.params.map (pyFormatServer server)
  let timeout_sec := computeTimeout params
  match outcome with
  | IperfOutcome.timedOut =>
    Except.ok
      { server := server, scenario := sc.name, success := false,
        duration := (timeout_sec : ℚ), data := JsonTree.obj [],
        bandwidth_mbps := none, retransmits := none, jitter_ms := none,
        packet_loss := none, error := some "Timeout" }
  | IperfOutcome.completed rc out stderr elapsed =>
    match rc, out with
    | 0, IperfStdout.parsed j => do
      let rt ← extract_retransmits j
      let jit ← extract_jitter j
      let pl ← extract_packet_loss j
      Except.ok
        { server := server, scenario := sc.name, success := true,
          duration := elapsed, data := j,
          bandwidth_mbps := some (extract_bandwidth j),
          retransmits := some rt, jitter_ms := some jit, packet_loss := some pl,
          error := none }
    | 0, IperfStdout.malformed =>
      Except.ok
        { server := server, scenario := sc.name, success := false,
          duration := elapsed, data := JsonTree.obj [],
          bandwidth_mbps := none, retransmits := none, jitter_ms := none,
          packet_loss := none, error := some "Invalid JSON output from iperf3" }
    | _, _ =>
      Except.ok
        { server := server, scenario := sc.name, success := false,
          duration := elapsed, data := JsonTree.obj [],
          bandwidth_mbps := none, retransmits := none, jitter_ms := none,
          packet_loss := none,
          error := some (if stderr == "" then "Unknown error" else stderr) }

/-- The per-(endpoint, scenario) aggregated record. -/
structure AggregatedResult where
  server : String
  scenario : String
  success : Bool
  bandwidth_mbps : ℚ
  retransmits : ℤ
  jitter_ms : ℚ
  packet_loss : ℚ
  duration : ℚ
  error : Option String
  all_raw_data : List JsonTree

/-- The aggregation step of `run_all_iperf_tests` for one
(endpoint, scenario) batch of trial records. -/
def aggregate_trials (server scenarioName : String)
    (trial_results : List TrialResult) : AggregatedResult :=
  let successful := trial_results.filter (fun r => r.success)
  if successful.isEmpty then
    { server := server, scenario := scenarioName, success := false,
      error := some (String.intercalate "; "
        (trial_results.map (fun r => r.error.getD "Unknown"))),
      bandwidth_mbps := 0, retransmits := 0, jitter_ms := 0, packet_loss := 0,
      duration := pyMedian (trial_results.map (fun r => r.duration)),
      all_raw_data := [] }
  else
    { server := server, scenario := scenarioName, success := true,
      bandwidth_mbps := pyMedian (successful.map (fun r => r.bandwidth_mbps.getD 0)),
      retransmits := pyIntTrunc (pyMedian (successful.map (fun r => r.retransmits.getD 0))),
      jitter_ms := pyMedian (successful.map (fun r => r.jitter_ms.getD 0)),
      packet_loss := pyMedian (successful.map (fun r => r.packet_loss.getD 0)),
      duration := pyMedian (successful.map (fun r => r.duration)),
      error := none,
      all_raw_data := successful.map (fun r => r.data) }

/-- The sequential trial loop of `run_all_iperf_tests` for one
(endpoint, scenario) pair (the inter-trial `time.sleep` is timing only). -/
def runTrials (server : String) (sc : Scenario) :
    List IperfOutcome → Except PyErr (List TrialResult)
  | [] => Except.ok []
  | o :: os =>
    match run_iperf_test server sc o with
    | Except.error e => Except.error e
    | Except.ok t =>
      match runTrials server sc os with
      | Except.error e => Except.error e
      | Except.ok ts => Except.ok (t :: ts)

/-- One (endpoint, scenario) cell of `run_all_iperf_tests`: run the trials
for the given external outcomes, then aggregate. -/
def runScenarioBatch (server : String) (sc : Scenario)
    (outcomes : List IperfOutcome) : Except PyErr AggregatedResult :=
  match runTrials server sc outcomes with
  | Except.error e => Except.error e
  | Except.ok ts => Except.ok (aggregate_trials server sc.name ts)

/-! ## Resolution Trial Runner (`run_dns_performance_test`) -/

/-- One resolution trial's record.  `status` is kept as the literal Python
string. -/
structure DnsResult where
  domain : String
  dns_server : String
  success : Bool
  response_time_ms : ℚ
  query_time_ms : ℚ
  status : String
  resolved_ips : List String
  error : String
deriving DecidableEq, Repr

/-- The external behaviour of one dig invocation: normal completion (with
exit code, captured streams and wall-clock seconds), a
`subprocess.TimeoutExpired`, or any other exception out of the call. -/
inductive DigOutcome where
  | completed (returncode : Int) (stdout : String) (stderr : String) (elapsed : ℚ)
  | timedOut
  | raised (msg : String)

/-- A trial's outcome together with whether the external resolver was
invoked at all. -/
structure DnsTrialRun where
  entry : DnsResult
  digInvoked : Bool
deriving DecidableEq, Repr

/-- `stdout.split('\n')` (after the caller's strip). -/
def splitLines (s : String) : List String :=
  (splitOnChar '\n' s.data).map fun l => ⟨l⟩

/-- `line.split()[0]` — the first whitespace-separated token. -/
def headToken (s : String) : String := (splitWS s).headD ""

/-- The answer-parsing loop: per stripped non-empty line, a line containing
the token "CNAME" feeds the CNAME list, otherwise the line is parsed with
`ipaddress.ip_address` and its canonical form appended on success; an
unparsable line is dropped. -/
def parseAnswerLines : List String → List String × List String
  | [] => ([], [])
  | l :: ls =>
    let rest := parseAnswerLines ls
    let line := pyStrip l
    if line == "" then rest
    else if containsSub "CNAME" line then (rest.1, headToken line :: rest.2)
    else
      match ip_address line with
      | some a => (str_ip a :: rest.1, rest.2)
      | none => rest

/-- The CGN validation loop: first address for which `_is_cgn_ip` holds
wins; an exception out of `_is_cgn_ip` propagates (to the enclosing
`except Exception` handler). -/
def anyCgn : List String → Except PyErr Bool
  | [] => Except.ok false
  | ip :: rest =>
    match _is_cgn_ip ip with
    | Except.error e => Except.error e
    | Except.ok true => Except.ok true
    | Except.ok false => anyCgn rest

/-- `NetworkPerformanceTester.run_dns_performance_test`.
`dns_domains_to_test` is the key list of the parsed zone registry. -/
def run_dns_performance_test (dns_domains_to_test : List String) (domain : String)
    (dns_server : Option String) (outcome : DigOutcome) : DnsTrialRun :=
  let srvName := match dns_server with
    | none => "system"
    | some s => if s == "" then "system" else s
  let base : DnsResult :=
    { domain := domain, dns_server := srvName, success := false,
      response_time_ms := 0, query_time_ms := 0, status := "FAILED_VALIDATION",
      resolved_ips := [], error := "" }
  if !(dns_domains_to_test.contains domain) then
    { entry :=
        { base with
          error := "Domain '" ++ domain ++ "' not found in the provided zone file." },
      digInvoked := false }
  else
    match outcome with
    | DigOutcome.timedOut =>
      { entry :=
          { base with
            response_time_ms := 10000, error := "Timeout",
            status := "TIMEOUT" },
        digInvoked := true }
    | DigOutcome.raised msg =>
      { entry :=
          { base with
            error := "An unexpected error occurred: " ++ msg,
            status := "ERROR" },
        digInvoked := true }
    | DigOutcome.completed rc stdout stderr elapsed =>
      let response_time := elapsed * 1000
      let e1 := { base with response_time_ms := response_time }
      if rc ≠ 0 then
        { entry :=
            { e1 with
              error := if stderr == "" then "dig command failed" else stderr },
          digInvoked := true }
      else
        let parsed := parseAnswerLines (splitLines (pyStrip stdout))
        let resolved_ips := parsed.1
        let cname_targets := parsed.2
        let e2 := { e1 with resolved_ips := resolved_ips }
        if !cname_targets.isEmpty && resolved_ips.isEmpty then
          { entry :=
              { e2 with
                error := "CNAME chain for '" ++ domain ++
                  "' did not resolve to an A record." },
            digInvoked := true }
        else
          match anyCgn resolved_ips with
          | Except.error _ =>
            { entry :=
                { e2 with
                  status := "ERROR",
                  error := "An unexpected error occurred: ValueError" },
              digInvoked := true }
          | Except.ok true =>
            { entry :=
                { e2 with
                  success := true, status := "SUCCESS",
                  query_time_ms := response_time },
              digInvoked := true }
          | Except.ok false =>
            { entry :=
                { e2 with
                  error := "Resolved IP(s) not within 100.64.0.0/10 CGN range.",
                  status := "FAILED_CGN_VALIDATION" },
              digInvoked := true }

/-! ## Helper lemmas for the claim theorems -/

/-- Key lookup in an object payload (absent on non-objects), used to state
the presence/absence of the extraction field paths. -/
def objLookup (j : JsonTree) (k : String) : Option JsonTree :=
  match j with
  | JsonTree.obj fs => (fs.find? (fun p => p.1 == k)).map (fun p => p.2)
  | _ => none

theorem find?_sat {α : Type} (p : α → Bool) :
    ∀ (l : List α) (a : α), l.find? p = some a → p a = true := by
  intro l
  induction l with
  | nil => intro a h; simp [List.find?] at h
  | cons x xs ih =>
    intro a h
    rw [List.find?] at h
    cases hp : p x with
    | true => rw [hp] at h; cases h; exact hp
    | false => rw [hp] at h; exact ih a h

theorem objLookup_contains (fs : List (String × JsonTree)) (k : String)
    (e : JsonTree) (h : objLookup (JsonTree.obj fs) k = some e) :
    pyContains (JsonTree.obj fs) k = Except.ok true ∧
      pyIndex (JsonTree.obj fs) k = Except.ok e := by
  simp only [objLookup, Option.map_eq_some'] at h
  obtain ⟨p, hfind, hp2⟩ := h
  constructor
  · simp only [pyContains, Except.ok.injEq]
    rw [List.any_eq_true]
    exact ⟨p, List.mem_of_find?_eq_some hfind, find?_sat _ fs p hfind⟩
  · simp [pyIndex, hfind, hp2]

theorem objLookup_none_contains (fs : List (String × JsonTree)) (k : String)
    (h : objLookup (JsonTree.obj fs) k = none) :
    pyContains (JsonTree.obj fs) k = Except.ok false := by
  simp only [objLookup, Option.map_eq_none', List.find?_eq_none] at h
  simp only [pyContains, Except.ok.injEq]
  rw [Bool.eq_false_iff]
  intro hany
  rw [List.any_eq_true] at hany
  obtain ⟨p, hp, hpk⟩ := hany
  exact absurd hpk (h p hp)

theorem objLookup_some_obj (j : JsonTree) (k : String) (e : JsonTree)
    (h : objLookup j k = some e) : ∃ fs, j = JsonTree.obj fs := by
  cases j with
  | obj fs => exact ⟨fs, rfl⟩
  | null => simp [objLookup] at h
  | bool b => simp [objLookup] at h
  | num q => simp [objLookup] at h
  | str s => simp [objLookup] at h
  | arr xs => simp [objLookup] at h

/-- Everything appended to `resolved_ips` by the answer-parsing loop is the
canonical form of a successfully parsed address. -/
theorem parseAnswerLines_valid :
    ∀ (lines : List String) (s : String), s ∈ (parseAnswerLines lines).1 →
      ∃ a, validAddr a ∧ s = str_ip a := by
  intro lines
  induction lines with
  | nil => intro s hs; simp [parseAnswerLines] at hs
  | cons l ls ih =>
    intro s hs
    simp only [parseAnswerLines] at hs
    split at hs
    · exact ih s hs
    · split at hs
      · exact ih s hs
      · split at hs
        next a heq =>
          rcases List.mem_cons.mp hs with rfl | hmem
          · exact ⟨a, ip_address_valid _ a heq, rfl⟩
          · exact ih s hmem
        next => exact ih s hs

/-- The CGN validation loop never raises over a list of canonical address
forms: each element re-parses, so `_is_cgn_ip` returns normally. -/
theorem anyCgn_no_error :
    ∀ ips : List String, (∀ s ∈ ips, ∃ a, validAddr a ∧ s = str_ip a) →
      ∀ pe : PyErr, anyCgn ips ≠ Except.error pe := by
  intro ips
  induction ips with
  | nil => intro _ pe; simp [anyCgn]
  | cons ip rest ih =>
    intro h pe
    obtain ⟨a, hv, heq⟩ := h ip (List.mem_cons_self ip rest)
    subst heq
    simp only [anyCgn, is_cgn_ip_str_ip a hv]
    cases hc : isInCgnBlock a with
    | true => simp
    | false => exact ih (fun s hs => h s (List.mem_cons_of_mem _ hs)) pe

theorem ctGo_no_t : ∀ (l : List String) (t : Int), "-t" ∉ l → ctGo t l = t := by
  intro l
  induction l with
  | nil => intro t _; rfl
  | cons p rest ih =>
    intro t h
    match rest with
    | [] => rfl
    | q :: rs =>
      have hp : ¬ (p == "-t") = true := by
        simp only [beq_iff_eq]
        exact fun hc => h (hc ▸ List.mem_cons_self p _)
      simp only [ctGo, if_neg hp]
      exact ih t (fun hm => h (List.mem_cons_of_mem p hm))

theorem ctGo_last_t :
    ∀ (pre : List String) (v : String) (post : List String) (n : Nat) (t : Int),
      "-t" ∉ post → pyInt v = some (n : Int) →
      ctGo t (pre ++ "-t" :: v :: post) = (n : Int) + 20 := by
  intro pre
  induction pre with
  | nil =>
    intro v post n t hpost hv
    have hvt : v ≠ "-t" := by
      intro hc
      rw [hc, show pyInt "-t" = none from by decide] at hv
      exact Option.noConfusion hv
    simp only [List.nil_append, ctGo, if_pos (by simp : ("-t" == "-t") = true), hv]
    exact ctGo_no_t (v :: post) _ (by
      intro hm
      rcases List.mem_cons.mp hm with hc | hm2
      · exact hvt hc.symm
      · exact hpost hm2)
  | cons a pre2 ih =>
    intro v post n t hpost hv
    match hsh : pre2 ++ "-t" :: v :: post with
    | [] => exact absurd hsh (by simp)
    | b :: bs =>
      have step : ctGo t (a :: b :: bs) =
          ctGo (if a == "-t" then (match pyInt b with
            | some m => m + 20
            | none => t) else t) (b :: bs) := rfl
      rw [List.cons_append, hsh, step, ← hsh, ih v post n _ hpost hv]

/-- A successful bandwidth trial record with given bandwidth and
retransmit samples (test fixture). -/
def mkTrialS (bw rt : ℚ) : TrialResult :=
  { server := "e", scenario := "s", success := true, duration := 10,
    data := JsonTree.obj [], bandwidth_mbps := some bw, retransmits := some rt,
    jitter_ms := some 0, packet_loss := some 0, error := none }

/-- A failed bandwidth trial record with the given error (test fixture). -/
def mkTrialF (msg : String) : TrialResult :=
  { server := "e", scenario := "s", success := false, duration := 8,
    data := JsonTree.obj [], bandwidth_mbps := none, retransmits := none,
    jitter_ms := none, packet_loss := none, error := some msg }

/-- Batch of 5 with two successes whose retransmit samples are 1 and 2:
their median is 3/2, where `int(...)` and rounding to nearest differ. -/
def c3CounterBatch : List TrialResult :=
  [mkTrialS 100 1, mkTrialS 200 2, mkTrialF "boom", mkTrialF "boom", mkTrialF "boom"]

/-- Batch of 5 successes with bandwidth samples [100, 200, 150, 300, 250]. -/
def c3WitnessBatch : List TrialResult :=
  [mkTrialS 100 1, mkTrialS 200 2, mkTrialS 150 3, mkTrialS 300 4, mkTrialS 250 5]

/-- Batch of 5 failures with distinct error messages. -/
def c8Batch : List TrialResult :=
  [mkTrialF "e1", mkTrialF "e2", mkTrialF "e3", mkTrialF "e4", mkTrialF "e5"]

/-! ## Claim theorems -/

/-- C1: the claim says `_is_cgn_ip` returns false, without raising, on a
string that does not parse as an address literal.  The code evaluates the
claim's in-block/out-of-block cases correctly, but on malformed input
`ipaddress.ip_address` raises a plain `ValueError`, which the
`except ipaddress.AddressValueError` clause does not catch — the call
raises instead of returning false. -/
theorem c1_is_cgn_ip_eval :
    _is_cgn_ip "not-an-ip" = Except.error PyErr.valueError ∧
    _is_cgn_ip "100.64.1.5" = Except.ok true ∧
    _is_cgn_ip "100.64.0.0" = Except.ok true ∧
    _is_cgn_ip "100.127.255.255" = Except.ok true ∧
    _is_cgn_ip "100.128.0.0" = Except.ok false ∧
    _is_cgn_ip "8.8.8.8" = Except.ok false := by decide

/-- C2: the claim says every zone line with fewer than 5 fields is ignored
without failing.  Lines with at most 3 fields are ignored (first
conjunct), but the guard in the code is `len(parts) < 4` while `parts[4]`
is read unconditionally: a line with exactly 4 fields raises `IndexError`
(second conjunct), so the loader does not ignore it and the process
fails. -/
theorem c2_zone_loader_eval :
    _parse_zone_file ["a.example. 3600 IN A 100.64.1.5", "x y z"] =
      Except.ok [("a.example", ⟨RType.A, "100.64.1.5"⟩)] ∧
    _parse_zone_file ["a.example. 3600 IN A 100.64.1.5"] =
      Except.ok [("a.example", ⟨RType.A, "100.64.1.5"⟩)] ∧
    _parse_zone_file ["a.example. 3600 IN A 100.64.1.5", "b.example. 3600 IN A"] =
      Except.error PyErr.indexError := by decide

/-- C4: a domain that is not a key of the parsed zone registry is rejected
immediately — success false, status FAILED_VALIDATION — and the external
resolver is never invoked. -/
theorem c4_unregistered_domain_rejected (domains : List String) (domain : String)
    (srv : Option String) (outcome : DigOutcome)
    (hdom : domains.contains domain = false) :
    (run_dns_performance_test domains domain srv outcome).digInvoked = false ∧
    (run_dns_performance_test domains domain srv outcome).entry.success = false ∧
    (run_dns_performance_test domains domain srv outcome).entry.status =
      "FAILED_VALIDATION" := by
  have hdom2 : domain ∉ domains := by simpa using hdom
  simp [run_dns_performance_test, hdom2]

/-- C4 witness: a concrete unregistered domain. -/
theorem c4_unregistered_domain_rejected_witness :
    (["a.example"].contains "b.example" = false) ∧
    (run_dns_performance_test ["a.example"] "b.example" none
      DigOutcome.timedOut).digInvoked = false ∧
    (run_dns_performance_test ["a.example"] "b.example" none
      DigOutcome.timedOut).entry.success = false ∧
    (run_dns_performance_test ["a.example"] "b.example" none
      DigOutcome.timedOut).entry.status = "FAILED_VALIDATION" := by
  have h := c4_unregistered_domain_rejected ["a.example"] "b.example" none
    DigOutcome.timedOut (by decide)
  exact ⟨by decide, h.1, h.2.1, h.2.2⟩

/-- C10: on a non-zero resolver exit code the trial returns success=false
with the *initialized* status FAILED_VALIDATION (not ERROR), error equal
to the captured stderr or "dig command failed" when stderr is empty, an
empty resolvedAddresses list, and responseTimeMs already set to the
measured wall-clock time. -/
theorem c10_dig_nonzero_exit (domains : List String) (domain : String)
    (srv : Option String) (rc : Int) (stdout stderr : String) (elapsed : ℚ)
    (hdom : domains.contains domain = true) (hrc : rc ≠ 0) :
    (run_dns_performance_test domains domain srv
      (DigOutcome.completed rc stdout stderr elapsed)).entry.success = false ∧
    (run_dns_performance_test domains domain srv
      (DigOutcome.completed rc stdout stderr elapsed)).entry.status =
      "FAILED_VALIDATION" ∧
    (run_dns_performance_test domains domain srv
      (DigOutcome.completed rc stdout stderr elapsed)).entry.error =
      (if stderr == "" then "dig command failed" else stderr) ∧
    (run_dns_performance_test domains domain srv
      (DigOutcome.completed rc stdout stderr elapsed)).entry.resolved_ips = [] ∧
    (run_dns_performance_test domains domain srv
      (DigOutcome.completed rc stdout stderr elapsed)).entry.response_time_ms =
      elapsed * 1000 ∧
    (run_dns_performance_test domains domain srv
      (DigOutcome.completed rc stdout stderr elapsed)).digInvoked = true := by
  have hdom2 : domain ∈ domains := by simpa using hdom
  simp [run_dns_performance_test, hdom2, hrc]

/-- C10 witness: registered domain, dig exits 1 with empty stderr. -/
theorem c10_dig_nonzero_exit_witness :
    (["a.example"].contains "a.example" = true) ∧ ((1 : Int) ≠ 0) ∧
    (run_dns_performance_test ["a.example"] "a.example" (some "8.8.8.8")
      (DigOutcome.completed 1 "" "" 2)).entry.success = false ∧
    (run_dns_performance_test ["a.example"] "a.example" (some "8.8.8.8")
      (DigOutcome.completed 1 "" "" 2)).entry.status = "FAILED_VALIDATION" ∧
    (run_dns_performance_test ["a.example"] "a.example" (some "8.8.8.8")
      (DigOutcome.completed 1 "" "" 2)).entry.error = "dig command failed" ∧
    (run_dns_performance_test ["a.example"] "a.example" (some "8.8.8.8")
      (DigOutcome.completed 1 "" "" 2)).entry.resolved_ips = [] ∧
    (run_dns_performance_test ["a.example"] "a.example" (some "8.8.8.8")
      (DigOutcome.completed 1 "" "" 2)).entry.response_time_ms = 2000 := by
  have h := c10_dig_nonzero_exit ["a.example"] "a.example" (some "8.8.8.8")
    1 "" "" 2 (by decide) (by decide)
  refine ⟨by decide, by decide, h.1, h.2.1, ?_, h.2.2.2.1, ?_⟩
  · rw [h.2.2.1]; rfl
  · rw [h.2.2.2.2.1]; norm_num

/-- C8: when all 5 trials of a batch fail, the aggregate is marked failed,
its error is all 5 trial error strings joined by "; ", and its duration is
the median of all 5 trials' durations (failed ones included). -/
theorem c8_all_failed_aggregate (server name : String) (ts : List TrialResult)
    (hlen : ts.length = 5) (hfail : ∀ t ∈ ts, t.success = false) :
    (aggregate_trials server name ts).success = false ∧
    (aggregate_trials server name ts).error =
      some (String.intercalate "; " (ts.map (fun r => r.error.getD "Unknown"))) ∧
    (aggregate_trials server name ts).duration =
      pyMedian (ts.map (fun r => r.duration)) := by
  have hempty : (ts.filter (fun r => r.success)).isEmpty = true := by
    rw [List.isEmpty_iff, List.filter_eq_nil_iff]
    intro a ha
    simp [hfail a ha]
  simp only [aggregate_trials]
  rw [if_pos hempty]
  exact ⟨rfl, rfl, rfl⟩

/-- C8 witness: a concrete batch of 5 failures. -/
theorem c8_all_failed_aggregate_witness :
    c8Batch.length = 5 ∧ (∀ t ∈ c8Batch, t.success = false) ∧
    (aggregate_trials "e" "s" c8Batch).success = false ∧
    (aggregate_trials "e" "s" c8Batch).error =
      some "e1; e2; e3; e4; e5" := by
  have h := c8_all_failed_aggregate "e" "s" c8Batch rfl (by decide)
  refine ⟨rfl, by decide, h.1, ?_⟩
  rw [h.2.1]
  decide

/-- C3 counterexample: in a batch of 5 trials whose 2 successes have
retransmit samples 1 and 2, the median is 3/2; the code stores
`int(1.5) = 1`, while the claim's "rounded to an integer" gives 2 (so the
claim, as stated, fails here; Python's own `round(1.5)` is also 2). -/
theorem c3_retransmits_rounding_counterexample :
    c3CounterBatch.length = 5 ∧
    (c3CounterBatch.filter (fun r => r.success)).map (fun r => r.retransmits.getD 0) =
      [1, 2] ∧
    (aggregate_trials "e" "s" c3CounterBatch).retransmits = 1 ∧
    specRound (pyMedian ((c3CounterBatch.filter (fun r => r.success)).map
      (fun r => r.retransmits.getD 0))) = 2 := by
  refine ⟨rfl, by norm_num [c3CounterBatch, mkTrialS, mkTrialF, List.filter], ?_, ?_⟩
  · norm_num [aggregate_trials, c3CounterBatch, mkTrialS, mkTrialF, List.filter,
      pyMedian, sortQ, insertQ, pyIntTrunc]
  · norm_num [c3CounterBatch, mkTrialS, mkTrialF, List.filter, pyMedian, sortQ,
      insertQ, specRound, ratFloor]

/-- C3 (amended): for every batch of exactly 5 trials with at least one
success, the aggregate is marked successful and bandwidth, jitter, packet
loss and duration are the `statistics.median` over the successful trials
only; retransmits is that median *truncated toward zero* (Python
`int(...)`), not rounded to the nearest integer. -/
theorem c3_aggregate_median_metrics (server name : String) (ts : List TrialResult)
    (hlen : ts.length = 5) (hs : ts.filter (fun r => r.success) ≠ []) :
    (aggregate_trials server name ts).success = true ∧
    (aggregate_trials server name ts).bandwidth_mbps =
      pyMedian ((ts.filter (fun r => r.success)).map (fun r => r.bandwidth_mbps.getD 0)) ∧
    (aggregate_trials server name ts).jitter_ms =
      pyMedian ((ts.filter (fun r => r.success)).map (fun r => r.jitter_ms.getD 0)) ∧
    (aggregate_trials server name ts).packet_loss =
      pyMedian ((ts.filter (fun r => r.success)).map (fun r => r.packet_loss.getD 0)) ∧
    (aggregate_trials server name ts).duration =
      pyMedian ((ts.filter (fun r => r.success)).map (fun r => r.duration)) ∧
    (aggregate_trials server name ts).retransmits =
      pyIntTrunc (pyMedian ((ts.filter (fun r => r.success)).map
        (fun r => r.retransmits.getD 0))) := by
  have hne : (ts.filter (fun r => r.success)).isEmpty = false := by
    rw [Bool.eq_false_iff]
    intro hcontra
    rw [List.isEmpty_iff] at hcontra
    exact hs hcontra
  simp only [aggregate_trials]
  rw [hne]
  exact ⟨rfl, rfl, rfl, rfl, rfl, rfl⟩

/-- C3 witness: successful bandwidth samples [100, 200, 150, 300, 250]
aggregate to the median 200. -/
theorem c3_aggregate_median_metrics_witness :
    c3WitnessBatch.length = 5 ∧
    c3WitnessBatch.filter (fun r => r.success) ≠ [] ∧
    (aggregate_trials "e" "s" c3WitnessBatch).success = true ∧
    (aggregate_trials "e" "s" c3WitnessBatch).bandwidth_mbps = 200 := by
  have hs : c3WitnessBatch.filter (fun r => r.success) ≠ [] := by
    rw [show c3WitnessBatch.filter (fun r => r.success) = c3WitnessBatch from rfl]
    simp [c3WitnessBatch]
  have h := c3_aggregate_median_metrics "e" "s" c3WitnessBatch rfl hs
  refine ⟨rfl, hs, h.1, ?_⟩
  rw [h.2.1]
  norm_num [c3WitnessBatch, mkTrialS, List.filter, pyMedian, sortQ, insertQ]

/-- C6: for the timeout outcome, the trial result is failed with error
"Timeout" and duration equal to the computed timeout; the computed timeout
is 60 when no "-t" parameter occurs, and n + 20 when the (last) "-t"
parameter is followed by a token parsing as the integer n. -/
theorem c6_timeout_bound_and_result (server : String) (sc : Scenario) :
    (run_iperf_test server sc IperfOutcome.timedOut = Except.ok
      { server := server, scenario := sc.name, success := false,
        duration := ((computeTimeout (sc.params.map (pyFormatServer server)) : ℚ)),
        data := JsonTree.obj [], bandwidth_mbps := none, retransmits := none,
        jitter_ms := none, packet_loss := none, error := some "Timeout" }) ∧
    ("-t" ∉ sc.params.map (pyFormatServer server) →
      computeTimeout (sc.params.map (pyFormatServer server)) = 60) ∧
    (∀ (pre : List String) (v : String) (post : List String) (n : Nat),
      sc.params.map (pyFormatServer server) = pre ++ "-t" :: v :: post →
      "-t" ∉ post → pyInt v = some (n : Int) →
      computeTimeout (sc.params.map (pyFormatServer server)) = (n : Int) + 20) := by
  refine ⟨rfl, ?_, ?_⟩
  · intro hno
    exact ctGo_no_t _ 60 hno
  · intro pre v post n heq hpost hv
    rw [show computeTimeout (sc.params.map (pyFormatServer server)) =
      ctGo 60 (sc.params.map (pyFormatServer server)) from rfl, heq]
    exact ctGo_last_t pre v post n 60 hpost hv

/-- C6 witness: a scenario declaring "-t 30" that times out yields
error "Timeout" and duration 50 (= 30 + 20 headroom). -/
theorem c6_timeout_bound_and_result_witness :
    computeTimeout (["-c", "\x7bserver\x7d", "-t", "30", "-J"].map
      (pyFormatServer "h")) = 50 ∧
    run_iperf_test "h"
      ⟨"TCP Congestion Test", ["-c", "\x7bserver\x7d", "-t", "30", "-J"]⟩
      IperfOutcome.timedOut = Except.ok
      { server := "h", scenario := "TCP Congestion Test", success := false,
        duration := 50, data := JsonTree.obj [], bandwidth_mbps := none,
        retransmits := none, jitter_ms := none, packet_loss := none,
        error := some "Timeout" } := by
  have h := c6_timeout_bound_and_result "h"
    ⟨"TCP Congestion Test", ["-c", "\x7bserver\x7d", "-t", "30", "-J"]⟩
  have h50 := h.2.2 ["-c", "h"] "30" ["-J"] 30 (by decide) (by decide) (by decide)
  constructor
  · rw [h50]; decide
  · rw [h.1, h50]
    simp only [Except.ok.injEq, TrialResult.mk.injEq]
    norm_num

/-- C7: bandwidth extraction prefers the receiver-side aggregate
bits-per-second (divided by 1,000,000), falls back to the sender-side
aggregate when the receiver-side path is absent, and yields 0.0 without
raising when both are absent. -/
theorem c7_extract_bandwidth_policy (j : JsonTree) :
    (∀ e r q, objLookup j "end" = some e → objLookup e "sum_received" = some r →
      objLookup r "bits_per_second" = some (JsonTree.num q) →
      extract_bandwidth j = q / 1000000) ∧
    (∀ fs snt q, objLookup j "end" = some (JsonTree.obj fs) →
      objLookup (JsonTree.obj fs) "sum_received" = none →
      objLookup (JsonTree.obj fs) "sum_sent" = some snt →
      objLookup snt "bits_per_second" = some (JsonTree.num q) →
      extract_bandwidth j = q / 1000000) ∧
    (∀ fs, objLookup j "end" = some (JsonTree.obj fs) →
      objLookup (JsonTree.obj fs) "sum_received" = none →
      objLookup (JsonTree.obj fs) "sum_sent" = none →
      extract_bandwidth_except j = Except.ok 0) := by
  refine ⟨?_, ?_, ?_⟩
  · intro e r q h1 h2 h3
    obtain ⟨fj, rfl⟩ := objLookup_some_obj j "end" e h1
    obtain ⟨fe, rfl⟩ := objLookup_some_obj e "sum_received" r h2
    obtain ⟨fr, rfl⟩ := objLookup_some_obj r "bits_per_second" _ h3
    obtain ⟨hc1, hi1⟩ := objLookup_contains fj "end" _ h1
    obtain ⟨hc2, hi2⟩ := objLookup_contains fe "sum_received" _ h2
    obtain ⟨hc3, hi3⟩ := objLookup_contains fr "bits_per_second" _ h3
    simp [extract_bandwidth, extract_bandwidth_except, hc1, hi1, hc2, hi2, hc3, hi3,
      asNum, Except.bind, bind, pure, Except.pure]
  · intro fs snt q h1 h2 h3 h4
    obtain ⟨fj, rfl⟩ := objLookup_some_obj j "end" _ h1
    obtain ⟨fsn, rfl⟩ := objLookup_some_obj snt "bits_per_second" _ h4
    obtain ⟨hc1, hi1⟩ := objLookup_contains fj "end" _ h1
    have hc2 := objLookup_none_contains fs "sum_received" h2
    obtain ⟨hc3, hi3⟩ := objLookup_contains fs "sum_sent" _ h3
    obtain ⟨hc4, hi4⟩ := objLookup_contains fsn "bits_per_second" _ h4
    simp [extract_bandwidth, extract_bandwidth_except, hc1, hi1, hc2, hc3, hi3,
      hc4, hi4, asNum, Except.bind, bind, pure, Except.pure]
  · intro fs h1 h2 h3
    obtain ⟨fj, rfl⟩ := objLookup_some_obj j "end" _ h1
    obtain ⟨hc1, hi1⟩ := objLookup_contains fj "end" _ h1
    have hc2 := objLookup_none_contains fs "sum_received" h2
    have hc3 := objLookup_none_contains fs "sum_sent" h3
    simp [extract_bandwidth_except, hc1, hi1, hc2, hc3, Except.bind, bind, pure,
      Except.pure]

/-- The claim's round-trip payload: end.sum_received.bits_per_second =
5,000,000,000. -/
def c7Payload : JsonTree :=
  JsonTree.obj [("end", JsonTree.obj [("sum_received",
    JsonTree.obj [("bits_per_second", JsonTree.num 5000000000)])])]

/-- A payload whose "end" object has neither sum_received nor sum_sent. -/
def c7EmptyEnd : JsonTree := JsonTree.obj [("end", JsonTree.obj [("streams", JsonTree.arr [])])]

/-- C7 witness: the 5 Gbit/s payload extracts exactly 5000.0 Mbps, and a
payload with neither aggregate yields 0.0 without raising. -/
theorem c7_extract_bandwidth_policy_witness :
    objLookup c7Payload "end" =
      some (JsonTree.obj [("sum_received",
        JsonTree.obj [("bits_per_second", JsonTree.num 5000000000)])]) ∧
    extract_bandwidth c7Payload = 5000 ∧
    extract_bandwidth_except c7EmptyEnd = Except.ok 0 := by
  refine ⟨rfl, ?_, ?_⟩
  · rw [(c7_extract_bandwidth_policy c7Payload).1
      (JsonTree.obj [("sum_received",
        JsonTree.obj [("bits_per_second", JsonTree.num 5000000000)])])
      (JsonTree.obj [("bits_per_second", JsonTree.num 5000000000)])
      5000000000 rfl rfl rfl]
    norm_num
  · exact (c7_extract_bandwidth_policy c7EmptyEnd).2.2
      [("streams", JsonTree.arr [])] rfl rfl rfl

/-- C9: every element of a resolution trial's resolvedAddresses parses as
an address literal — unparseable answer lines are dropped, never stored. -/
theorem c9_resolved_ips_valid (domains : List String) (domain : String)
    (srv : Option String) (outcome : DigOutcome) (s : String)
    (hs : s ∈ (run_dns_performance_test domains domain srv
      outcome).entry.resolved_ips) :
    (ip_address s).isSome = true := by
  have key : (run_dns_performance_test domains domain srv
        outcome).entry.resolved_ips = [] ∨
      ∃ lines, (run_dns_performance_test domains domain srv
        outcome).entry.resolved_ips = (parseAnswerLines lines).1 := by
    simp only [run_dns_performance_test]
    repeat' split
    all_goals
      first
      | (left; rfl)
      | exact Or.inr ⟨_, rfl⟩
  rcases key with hnil | ⟨lines, hl⟩
  · rw [hnil] at hs
    exact absurd hs (List.not_mem_nil s)
  · rw [hl] at hs
    obtain ⟨a, hv, rfl⟩ := parseAnswerLines_valid lines s hs
    rw [ip_address_str_ip a hv]
    rfl

/-- C9 witness: a registered domain resolving to "100.64.1.5" stores
exactly that literal, and it parses. -/
theorem c9_resolved_ips_valid_witness :
    "100.64.1.5" ∈ (run_dns_performance_test ["a.example"] "a.example" none
      (DigOutcome.completed 0 "100.64.1.5" "" 1)).entry.resolved_ips ∧
    (ip_address "100.64.1.5").isSome = true := by
  refine ⟨by decide, c9_resolved_ips_valid ["a.example"] "a.example" none
    (DigOutcome.completed 0 "100.64.1.5" "" 1) "100.64.1.5" (by decide)⟩

/-- C5: for a trial that reaches address validation (registered domain,
resolver exit code 0, and not the unresolved-CNAME-chain early return),
the stored resolvedAddresses are exactly the parsed answer addresses, the
validation loop cannot raise, and: at least one address in the CGN block
gives success=true, status=SUCCESS, queryTimeMs=responseTimeMs; none gives
success=false, status=FAILED_CGN_VALIDATION. -/
theorem c5_cgn_validation_outcome (domains : List String) (domain : String)
    (srv : Option String) (rc : Int) (stdout stderr : String) (elapsed : ℚ)
    (ips cnames : List String)
    (hdom : domains.contains domain = true) (hrc : rc = 0)
    (hparse : parseAnswerLines (splitLines (pyStrip stdout)) = (ips, cnames))
    (hreach : ¬(cnames ≠ [] ∧ ips = [])) :
    ((run_dns_performance_test domains domain srv
      (DigOutcome.completed rc stdout stderr elapsed)).entry.resolved_ips = ips) ∧
    (∀ pe : PyErr, anyCgn ips ≠ Except.error pe) ∧
    (anyCgn ips = Except.ok true →
      (run_dns_performance_test domains domain srv
        (DigOutcome.completed rc stdout stderr elapsed)).entry.success = true ∧
      (run_dns_performance_test domains domain srv
        (DigOutcome.completed rc stdout stderr elapsed)).entry.status = "SUCCESS" ∧
      (run_dns_performance_test domains domain srv
        (DigOutcome.completed rc stdout stderr elapsed)).entry.query_time_ms =
      (run_dns_performance_test domains domain srv
        (DigOutcome.completed rc stdout stderr elapsed)).entry.response_time_ms) ∧
    (anyCgn ips = Except.ok false →
      (run_dns_performance_test domains domain srv
        (DigOutcome.completed rc stdout stderr elapsed)).entry.success = false ∧
      (run_dns_performance_test domains domain srv
        (DigOutcome.completed rc stdout stderr elapsed)).entry.status =
        "FAILED_CGN_VALIDATION") := by
  subst hrc
  have hdom2 : domain ∈ domains := by simpa using hdom
  have hvalid : ∀ x ∈ ips, ∃ a, validAddr a ∧ x = str_ip a := by
    intro x hx
    refine parseAnswerLines_valid (splitLines (pyStrip stdout)) x ?_
    rw [hparse]
    exact hx
  have hnoerr := anyCgn_no_error ips hvalid
  refine ⟨?_, hnoerr, ?_, ?_⟩
  · cases hany : anyCgn ips with
    | error pe => exact absurd hany (hnoerr pe)
    | ok b =>
      cases b <;> simp [run_dns_performance_test, hdom2, hparse, hany, hreach]
  · intro hb
    refine ⟨?_, ?_, ?_⟩ <;>
      simp [run_dns_performance_test, hdom2, hparse, hb, hreach]
  · intro hb
    refine ⟨?_, ?_⟩ <;>
      simp [run_dns_performance_test, hdom2, hparse, hb, hreach]

/-- C5 witness: registry line "a.example. 3600 IN A 100.64.1.5"; a lookup
answering "100.64.1.5" succeeds with status SUCCESS and stores exactly
that address; answering "8.8.8.8" instead flips to success=false with
status FAILED_CGN_VALIDATION. -/
theorem c5_cgn_validation_outcome_witness :
    (_parse_zone_file ["a.example. 3600 IN A 100.64.1.5"] =
      Except.ok [("a.example", ⟨RType.A, "100.64.1.5"⟩)]) ∧
    anyCgn ["100.64.1.5"] = Except.ok true ∧
    (run_dns_performance_test ["a.example"] "a.example" none
      (DigOutcome.completed 0 "100.64.1.5" "" 1)).entry.success = true ∧
    (run_dns_performance_test ["a.example"] "a.example" none
      (DigOutcome.completed 0 "100.64.1.5" "" 1)).entry.status = "SUCCESS" ∧
    (run_dns_performance_test ["a.example"] "a.example" none
      (DigOutcome.completed 0 "100.64.1.5" "" 1)).entry.resolved_ips =
      ["100.64.1.5"] ∧
    anyCgn ["8.8.8.8"] = Except.ok false ∧
    (run_dns_performance_test ["a.example"] "a.example" none
      (DigOutcome.completed 0 "8.8.8.8" "" 1)).entry.success = false ∧
    (run_dns_performance_test ["a.example"] "a.example" none
      (DigOutcome.completed 0 "8.8.8.8" "" 1)).entry.status =
      "FAILED_CGN_VALIDATION" := by
  have h1 := c5_cgn_validation_outcome ["a.example"] "a.example" none 0
    "100.64.1.5" "" 1 ["100.64.1.5"] [] (by decide) rfl (by decide) (by simp)
  have h2 := c5_cgn_validation_outcome ["a.example"] "a.example" none 0
    "8.8.8.8" "" 1 ["8.8.8.8"] [] (by decide) rfl (by decide) (by simp)
  have ha1 : anyCgn ["100.64.1.5"] = Except.ok true := by decide
  have ha2 : anyCgn ["8.8.8.8"] = Except.ok false := by decide
  exact ⟨by decide, ha1, (h1.2.2.1 ha1).1, (h1.2.2.1 ha1).2.1, h1.1, ha2,
    (h2.2.2.2 ha2).1, (h2.2.2.2 ha2).2⟩
